import Mathlib

/-!
Verification of the OmniShop infrastructure teardown engine
(src/infra/scripts/cleanup/nuke.py) against its natural-language
specification.

The Python source is shallowly embedded: each relevant function of
`AWSCleaner` (and of `main`) is translated into an executable Lean
definition.  Side-effecting AWS API calls are modelled by traces of
`Event` values (the sequence of calls the engine issues), and the cloud
account is modelled by an explicit environment record whose fields hold
the results the provider returns for each listing call.  Python
exceptions are modelled explicitly where a claim depends on them:
an operation that can raise is given a result value injected through the
environment, and the `try`/`except` structure of the source is mirrored
by the control flow of the Lean definition.
-/

namespace Nuke

/-- Boolean substring test on character lists: true when the first list
occurs contiguously inside the second.  This models the Python
expression `pat in s` on strings. -/
def hasSubList (pat : List Char) : List Char → Bool
  | [] => pat.isEmpty
  | c :: rest => pat.isPrefixOf (c :: rest) || hasSubList pat rest

/-- Substring test on strings, modelling Python's `pat in s`. -/
def hasSubstr (pat s : String) : Bool :=
  hasSubList pat.toList s.toList

/-- Prefix test on strings, modelling Python's `startswith` semantics of
a server-side name-prefix filter. -/
def strStarts (pre s : String) : Bool :=
  pre.toList.isPrefixOf s.toList

/-- A resource tag, a key/value pair of strings. -/
structure Tag where
  key : String
  value : String
deriving DecidableEq, Repr

/-- Model of `AWSCleaner._is_project_resource` (nuke.py lines 44-47):
an empty (falsy) name never matches; otherwise the name matches when any
project identifier is a substring of it. -/
def isProjectResource (pids : List String) (name : String) : Bool :=
  if name = "" then false else pids.any (fun pid => hasSubstr pid name)

/-- Model of the tag-based targeting test used for classic load
balancers (nuke.py lines 99-101): a tag whose key equals
"kubernetes.io/cluster/" followed by an identifier, or a tag whose value
has an identifier as substring. -/
def classicLbTagTarget (pids : List String) (tags : List Tag) : Bool :=
  tags.any (fun t => pids.any (fun pid => t.key == "kubernetes.io/cluster/" ++ pid))
    || tags.any (fun t => pids.any (fun pid => hasSubstr pid t.value))

/-- Model of the full matching decision for a classic load balancer
(nuke.py lines 97-106).  The `tags` argument is `none` when the
`describe_tags` call raised, in which case `is_target` keeps its initial
`False` value and only the name test applies. -/
def classicLbTargeted (pids : List String) (name : String) (tags : Option (List Tag)) : Bool :=
  isProjectResource pids name ||
    (match tags with
     | none => false
     | some ts => classicLbTagTarget pids ts)

/-- The matcher exactly as the claim words it: an identifier is a
substring of the name, or an identifier EQUALS the value of some tag.
Written from the claim text, for comparison with the source-derived
`classicLbTargeted`. -/
def lbMatchSpecClaim (pids : List String) (name : String) (tags : List Tag) : Bool :=
  pids.any (fun pid => hasSubstr pid name)
    || tags.any (fun t => pids.any (fun pid => t.value == pid))

/-- The matcher as the claim must be amended: an identifier is a
substring of the (non-empty) name, or an identifier is a SUBSTRING of
the value of some tag, or some tag key equals "kubernetes.io/cluster/"
followed by an identifier. -/
def lbMatchSpecAmended (pids : List String) (name : String) (tags : List Tag) : Bool :=
  (!(name == "") && pids.any (fun pid => hasSubstr pid name))
    || tags.any (fun t => pids.any (fun pid => hasSubstr pid t.value))
    || tags.any (fun t => pids.any (fun pid => t.key == "kubernetes.io/cluster/" ++ pid))

/-- Model of the identifier-list construction in `main`
(nuke.py lines 575-591): the part contributed by the auto-detected
cluster name.  The code appends the detected name only when it is truthy
and not already in the base list `['omnishop']`. -/
def detectedPart : Option String → List String
  | none => []
  | some c => if c = "" then [] else if c = "omnishop" then [] else [c]

/-- Model of the identifier-list construction in `main`: the part
contributed by the `--projects` flag.  A missing or empty flag (falsy in
Python) contributes nothing; otherwise the flag is split on commas and
each piece stripped. -/
def userPart : Option String → List String
  | none => []
  | some s => if s = "" then [] else (s.splitOn ",").map (fun p => p.trim)

/-- Model of the complete `ProjectIdentifierSet` construction in `main`
(nuke.py lines 575-591): base token, then detected cluster name, then
user-supplied projects, finally deduplicated (`list(set(...))` in the
source; `List.dedup` here — the claims proved about it are invariant
under the enumeration order of the set). -/
def buildProjectIdentifiers (detected : Option String) (projectsFlag : Option String) :
    List String :=
  (["omnishop"] ++ detectedPart detected ++ userPart projectsFlag).dedup

/-- Observable steps of `run_terraform_destroy` and of the
post-confirmation part of `main`.  `tfCaught` records the content the
`except subprocess.CalledProcessError` handler logs as the error output
of the failed invocation (the value of `e.stderr`). -/
inductive Step where
  | lbCleanup
  | tfSkipNoBucket
  | tfInit
  | tfDestroy
  | tfCaught (captured : Option String)
  | promptForceConfirm
  | forceDelete
  | stateCleanup
  | verifyStep
deriving DecidableEq, Repr

/-- Results of the two external tool invocations: exit codes and what
the processes wrote to stderr. -/
structure TfEnv where
  initExit : Nat
  initStderr : String
  destroyExit : Nat
  destroyStderr : String
deriving DecidableEq, Repr

/-- Model of `AWSCleaner.run_terraform_destroy` (nuke.py lines 143-175).
With no state bucket the function returns before any external
invocation.  The `init` invocation runs with `capture_output=True`, so
on a non-zero exit the raised `CalledProcessError` carries the captured
stderr, which the handler logs.  The `destroy` invocation runs WITHOUT
output capture, so on a non-zero exit `e.stderr` is `None` and nothing
of the process error output is available to the handler.  In every case
the exception is caught, so the function always returns normally. -/
def runTerraformDestroy (stateBucket : Option String) (env : TfEnv) : List Step :=
  match stateBucket with
  | none => [Step.tfSkipNoBucket]
  | some _ =>
    if env.initExit ≠ 0 then
      [Step.tfInit, Step.tfCaught (some env.initStderr)]
    else if env.destroyExit ≠ 0 then
      [Step.tfInit, Step.tfDestroy, Step.tfCaught none]
    else
      [Step.tfInit, Step.tfDestroy]

/-- Model of the post-confirmation sequence of `main`
(nuke.py lines 632-647): load-balancer pre-cleanup, then either forced
deletion or the declarative destroy (followed, when the state bucket is
unset, by a prompt offering forced deletion), then state cleanup and
verification, which always run. -/
def mainSequence (force : Bool) (stateBucket : Option String) (forceConfirmYes : Bool)
    (env : TfEnv) : List Step :=
  [Step.lbCleanup] ++
    (if force then [Step.forceDelete]
     else
       runTerraformDestroy stateBucket env ++
         (match stateBucket with
          | none =>
            Step.promptForceConfirm :: (if forceConfirmYes then [Step.forceDelete] else [])
          | some _ => [])) ++
    [Step.stateCleanup, Step.verifyStep]

/-- Exceptions of the state-store model: a boto `ClientError` carrying
an error code, or any other exception. -/
inductive SErr where
  | clientError (code : String)
  | genericError
deriving DecidableEq, Repr

/-- Observable steps of `cleanup_state_store`. -/
inductive StoreEvent where
  | headBucket
  | deleteAllVersions
  | deleteBucket
  | logBucketDeleted
  | logBucketAbsentOk
  | s3Warn
  | logNoBucket
  | deleteTable
  | waitTableGone
  | logTableAbsentOk
  | logTableDeleted
  | tableWarn
deriving DecidableEq, Repr

/-- Results of the individual store operations, injected through the
environment; `Except.error` means the call raised. -/
structure StoreEnv where
  headRes : Except SErr Unit
  delVersionsRes : Except SErr Unit
  delBucketRes : Except SErr Unit
  delTableRes : Except SErr Unit
  waitRes : Except SErr Unit
deriving Repr

/-- Model of the inner S3 block of `cleanup_state_store`
(nuke.py lines 183-198): head the bucket, and if that succeeds delete
all object versions and then the bucket.  Returns the calls issued and
the first exception raised (if any), which the surrounding handlers
consume. -/
def s3Body (env : StoreEnv) : List StoreEvent × Option SErr :=
  match env.headRes with
  | Except.error e => ([StoreEvent.headBucket], some e)
  | Except.ok _ =>
    match env.delVersionsRes with
    | Except.error e => ([StoreEvent.headBucket, StoreEvent.deleteAllVersions], some e)
    | Except.ok _ =>
      match env.delBucketRes with
      | Except.error e =>
        ([StoreEvent.headBucket, StoreEvent.deleteAllVersions, StoreEvent.deleteBucket], some e)
      | Except.ok _ =>
        ([StoreEvent.headBucket, StoreEvent.deleteAllVersions, StoreEvent.deleteBucket,
          StoreEvent.logBucketDeleted], none)

/-- Model of the exception handlers around the S3 block
(nuke.py lines 193-200): a `ClientError` with code 404 is logged as
"bucket not found (already deleted)" — success; every other exception is
downgraded to a warning.  Nothing re-raises. -/
def handleS3Err : SErr → List StoreEvent
  | SErr.clientError code =>
    if code == "404" then [StoreEvent.logBucketAbsentOk] else [StoreEvent.s3Warn]
  | SErr.genericError => [StoreEvent.s3Warn]

/-- Model of the lock-table block of `cleanup_state_store`
(nuke.py lines 204-215): always calls `delete_table` on the coordination
table (the table holds the single lock record, so this removes it);
on success waits for the table to be gone; a
`ResourceNotFoundException` is logged as already-deleted — success; any
other exception is downgraded to a warning.  Nothing re-raises. -/
def lockBody (env : StoreEnv) : List StoreEvent :=
  match env.delTableRes with
  | Except.error (SErr.clientError code) =>
    if code == "ResourceNotFoundException" then
      [StoreEvent.deleteTable, StoreEvent.logTableAbsentOk]
    else
      [StoreEvent.deleteTable, StoreEvent.tableWarn]
  | Except.error SErr.genericError => [StoreEvent.deleteTable, StoreEvent.tableWarn]
  | Except.ok _ =>
    match env.waitRes with
    | Except.error _ => [StoreEvent.deleteTable, StoreEvent.waitTableGone, StoreEvent.tableWarn]
    | Except.ok _ =>
      [StoreEvent.deleteTable, StoreEvent.waitTableGone, StoreEvent.logTableDeleted]

/-- The S3 section of `cleanup_state_store`: skipped (with a log line)
when no bucket is configured; otherwise the S3 block runs and any
exception it raised is consumed by the handlers. -/
def s3Part (stateBucket : Option String) (env : StoreEnv) : List StoreEvent :=
  match stateBucket with
  | none => [StoreEvent.logNoBucket]
  | some _ =>
    (s3Body env).1 ++
      (match (s3Body env).2 with
       | none => []
       | some e => handleS3Err e)

/-- Model of `AWSCleaner.cleanup_state_store` (nuke.py lines 177-215):
the S3 part runs only when a state bucket is configured, with every
exception caught by the handlers above; the lock-table part always
runs.  The function is total: no environment makes it raise. -/
def cleanupStateStore (stateBucket : Option String) (env : StoreEnv) : List StoreEvent :=
  s3Part stateBucket env ++ lockBody env

/-- Model of the CloudWatch log-group phase of
`force_delete_infrastructure` (nuke.py lines 240-250), with failure
injection.  The inner loop issues one `delete_log_group` call per
matching group; a call that raises escapes the loop (there is no
per-resource handler) and is caught only by the handler around the
WHOLE phase.  Returns the names for which a delete call was issued and
the name whose call raised, if any. -/
def logGroupLoop (pids : List String) (delFails : String → Bool) :
    List String → List String × Option String
  | [] => ([], none)
  | lg :: rest =>
    if isProjectResource pids lg then
      if delFails lg then ([lg], some lg)
      else
        let r := logGroupLoop pids delFails rest
        (lg :: r.1, r.2)
    else logGroupLoop pids delFails rest

/-- The delete calls actually issued by the log-group phase: the
listing is server-side restricted to names with prefix "/aws/eks/", the
loop runs until it finishes or a delete raises, and the phase-level
handler swallows the exception (the run continues, but the remaining
groups of the phase are skipped). -/
def cleanupLogGroups (pids : List String) (lgs : List String) (delFails : String → Bool) :
    List String :=
  (logGroupLoop pids delFails (lgs.filter (fun s => strStarts "/aws/eks/" s))).1

/-- The attempts the deletion loop makes as the amended claim describes
them: all matching resources up to and including the first one whose
delete call fails. -/
def attemptsUntilFirstFailure (delFails : String → Bool) : List String → List String
  | [] => []
  | r :: rest =>
    if delFails r then [r] else r :: attemptsUntilFirstFailure delFails rest

/-- Model of the subnet-deletion loop (nuke.py lines 320-326), with
failure injection.  Here every delete call has its own
`try`/`except`, so every subnet in the listing is attempted no matter
which calls fail.  Returns (attempted deletes, subnets whose delete
failed and was logged). -/
def subnetLoop (delFails : String → Bool) : List String → List String × List String
  | [] => ([], [])
  | s :: rest =>
    let r := subnetLoop delFails rest
    (s :: r.1, (if delFails s then [s] else []) ++ r.2)

/-- Model of the internet-gateway loop (nuke.py lines 313-317), with
failure injection.  The `detach_internet_gateway` and
`delete_internet_gateway` calls have NO handler at any level inside
`force_delete_infrastructure`, so a failure propagates out of the
engine.  Returns the calls issued (as gateway ids, detach counted as
the attempt) and the id whose call raised, if any; a `some` second
component models an exception escaping the whole run. -/
def igwLoop (detachFails : String → Bool) : List String → List String × Option String
  | [] => ([], none)
  | g :: rest =>
    if detachFails g then ([g], some g)
    else
      let r := igwLoop detachFails rest
      (g :: r.1, r.2)

/-- A NAT gateway as `describe_nat_gateways` reports it. -/
structure NatGw where
  natId : String
  vpcOf : String
  state : String
deriving DecidableEq, Repr

/-- A security group as `describe_security_groups` reports it:
id, name, and its ingress/egress rule sets (opaque rule identifiers;
only emptiness matters to the engine). -/
structure SecGroup where
  groupId : String
  groupName : String
  ingressRules : List String
  egressRules : List String
deriving DecidableEq, Repr

/-- A route table: id plus the `Main` flags of its associations. -/
structure RouteTbl where
  rtId : String
  assocMains : List Bool
deriving DecidableEq, Repr

/-- An Elastic IP allocation with its Name tag (the engine's
`describe_addresses` call filters server-side on that tag). -/
structure EipAddr where
  allocationId : String
  nameTag : String
deriving DecidableEq, Repr

/-- One VPC together with the per-VPC listings the engine requests:
instances in terminable states, internet gateways, subnets, route
tables, security groups, and (for the verification reporter) network
ACLs with their IsDefault flag. -/
structure VpcEnv where
  vpcId : String
  nameTag : String
  isDefault : Bool
  instances : List String
  igws : List String
  subnets : List String
  routeTables : List RouteTbl
  secGroups : List SecGroup
  nacls : List (String × Bool)
deriving DecidableEq, Repr

/-- An IAM role with its attachments as the IAM listing calls report
them. -/
structure IamRole where
  roleName : String
  attachedPolicies : List String
  inlinePolicies : List String
  instanceProfiles : List String
deriving DecidableEq, Repr

/-- A customer-managed IAM policy with its versions
(versionId, isDefaultVersion). -/
structure IamPolicy where
  policyName : String
  arn : String
  versions : List (String × Bool)
deriving DecidableEq, Repr

/-- An OIDC identity provider with its tags. -/
structure OidcProvider where
  arn : String
  tags : List Tag
deriving DecidableEq, Repr

/-- A KMS alias with its optional target key and that key's state. -/
structure KmsAlias where
  aliasName : String
  targetKeyId : Option String
  keyState : String
deriving DecidableEq, Repr

/-- The cloud account as the provider reports it to the engine's
listing calls.  `natPolls v k` is the result of the k-th poll of
`describe_nat_gateways` for VPC `v` filtered to states
pending/available/deleting (NAT deletion is asynchronous, so successive
polls may differ from the initial listing held in `nats`). -/
structure AwsEnv where
  clusters : List String
  logGroups : List String
  clbs : List String
  albs : List String
  nats : List NatGw
  natPolls : String → Nat → List String
  vpcs : List VpcEnv
  eips : List EipAddr
  oidcs : List OidcProvider
  roles : List IamRole
  policies : List IamPolicy
  kmsAliases : List KmsAlias

/-- The calls `force_delete_infrastructure` issues, in order.
`listNats` and `pollNats` record what the corresponding
`describe_nat_gateways` call observed. -/
inductive Event where
  | deleteCluster (name : String)
  | waitClusterDeleted (name : String)
  | deleteLogGroup (name : String)
  | terminateInstances (vpcId : String) (ids : List String)
  | waitInstancesTerminated (vpcId : String)
  | listNats (vpcId : String) (observed : List NatGw)
  | deleteNat (natId : String)
  | pollNats (vpcId : String) (observed : List String)
  | sleep (secs : Nat)
  | releaseEip (allocationId : String)
  | detachIgw (vpcId igwId : String)
  | deleteIgw (igwId : String)
  | deleteSubnet (vpcId subnetId : String)
  | deleteRouteTable (rtId : String)
  | revokeIngress (vpcId groupId : String)
  | revokeEgress (vpcId groupId : String)
  | deleteSg (vpcId groupId : String)
  | deleteVpc (vpcId : String)
  | deleteOidc (arn : String)
  | detachRolePolicy (roleName policyArn : String)
  | deleteRolePolicy (roleName policyName : String)
  | removeRoleFromProfile (profile roleName : String)
  | deleteInstanceProfile (profile : String)
  | deleteRole (roleName : String)
  | deletePolicyVersion (arn versionId : String)
  | deletePolicy (arn : String)
  | deleteKmsAlias (aliasName : String)
  | scheduleKeyDeletion (keyId : String)
deriving DecidableEq, Repr

/-- Model of the NAT poll loop (nuke.py lines 292-300): observe the
gateways of the VPC still in pending/available/deleting; stop when none
remain, otherwise sleep 5 seconds and poll again.  The loop has no
bound in the source; `fuel` counts the polls this run is allowed, and
`none` models the loop still running (diverging) past that bound. -/
def natPollLoop (obs : Nat → List String) (vpcId : String) : Nat → Option (List Event)
  | 0 => none
  | fuel + 1 =>
    if (obs 0).isEmpty then some [Event.pollNats vpcId (obs 0)]
    else
      match natPollLoop (fun n => obs (n + 1)) vpcId fuel with
      | none => none
      | some rest => some (Event.pollNats vpcId (obs 0) :: Event.sleep 5 :: rest)

/-- Model of the security-group phase for one VPC (nuke.py lines
338-360): first pass revokes ingress and egress rules of every
non-default group (a revoke call is only made when the corresponding
rule list is non-empty), then `time.sleep(5)`, then the second pass
deletes every non-default group. -/
def revokeEventsOf (vpcId : String) (sg : SecGroup) : List Event :=
  if sg.groupName == "default" then []
  else
    (if sg.ingressRules.isEmpty then [] else [Event.revokeIngress vpcId sg.groupId])
      ++ (if sg.egressRules.isEmpty then [] else [Event.revokeEgress vpcId sg.groupId])

/-- Second pass of the security-group phase: delete every non-default
group. -/
def deleteSgEventsOf (vpcId : String) (sg : SecGroup) : List Event :=
  if sg.groupName == "default" then [] else [Event.deleteSg vpcId sg.groupId]

/-- The whole two-pass security-group phase for one VPC. -/
def sgPhase (vpcId : String) (sgs : List SecGroup) : List Event :=
  sgs.flatMap (revokeEventsOf vpcId) ++ [Event.sleep 5]
    ++ sgs.flatMap (deleteSgEventsOf vpcId)

/-- Instance-termination events of one VPC iteration (nuke.py lines
268-281): a terminate call over the listed instance ids, followed by
the instance-terminated waiter, both skipped when no instance was
listed. -/
def instEvents (v : VpcEnv) : List Event :=
  if v.instances.isEmpty then []
  else [Event.terminateInstances v.vpcId v.instances, Event.waitInstancesTerminated v.vpcId]

/-- The initial `describe_nat_gateways` listing for one VPC: the account
state filtered to gateways of that VPC (all states). -/
def natObsOf (env : AwsEnv) (v : VpcEnv) : List NatGw :=
  env.nats.filter (fun n => n.vpcOf == v.vpcId)

/-- The NAT delete calls of one VPC iteration (nuke.py lines 285-288):
one per listed gateway not already in state "deleted". -/
def natDeleteEvents (env : AwsEnv) (v : VpcEnv) : List Event :=
  ((natObsOf env v).filter (fun n => n.state != "deleted")).map (fun n => Event.deleteNat n.natId)

/-- The Elastic-IP release calls (nuke.py lines 304-310): the
`describe_addresses` call filters server-side on a Name tag matching
any identifier (note the filter is not VPC-scoped in the source). -/
def eipEvents (pids : List String) (env : AwsEnv) : List Event :=
  (env.eips.filter (fun e => pids.any (fun pid => hasSubstr pid e.nameTag))).map
    (fun e => Event.releaseEip e.allocationId)

/-- The internet-gateway detach/delete pairs (nuke.py lines 313-317). -/
def igwEvents (v : VpcEnv) : List Event :=
  v.igws.flatMap (fun g => [Event.detachIgw v.vpcId g, Event.deleteIgw g])

/-- The subnet delete calls (nuke.py lines 320-326). -/
def subnetEvents (v : VpcEnv) : List Event :=
  v.subnets.map (fun s => Event.deleteSubnet v.vpcId s)

/-- The route-table delete calls (nuke.py lines 329-336): tables with a
Main association are skipped. -/
def rtEvents (v : VpcEnv) : List Event :=
  (v.routeTables.filter (fun rt => !(rt.assocMains.any id))).map
    (fun rt => Event.deleteRouteTable rt.rtId)

/-- Model of one iteration of the per-VPC loop of
`force_delete_infrastructure` (nuke.py lines 263-368): terminate
instances and wait; list NAT gateways and delete the non-deleted ones;
if the listing was non-empty, poll until none remain active; release
matching Elastic IPs; detach and delete internet gateways; delete
subnets; delete non-main route tables; run the security-group phase;
delete the VPC. -/
def vpcSegment (pids : List String) (env : AwsEnv) (fuel : Nat) (v : VpcEnv) :
    Option (List Event) :=
  match (if (natObsOf env v).isEmpty then some []
         else natPollLoop (env.natPolls v.vpcId) v.vpcId fuel) with
  | none => none
  | some pollPart =>
    some (instEvents v ++ [Event.listNats v.vpcId (natObsOf env v)] ++ natDeleteEvents env v
      ++ pollPart ++ eipEvents pids env ++ igwEvents v ++ subnetEvents v ++ rtEvents v
      ++ sgPhase v.vpcId v.secGroups ++ [Event.deleteVpc v.vpcId])

/-- Sequential per-VPC processing: the matched VPCs are handled one
after the other; a diverging NAT poll in one VPC stalls the whole run. -/
def vpcSegments (pids : List String) (env : AwsEnv) (fuel : Nat) :
    List VpcEnv → Option (List Event)
  | [] => some []
  | v :: rest =>
    match vpcSegment pids env fuel v with
    | none => none
    | some s =>
      match vpcSegments pids env fuel rest with
      | none => none
      | some r => some (s ++ r)

/-- Model of the EKS phase (nuke.py lines 222-238): delete every
matching cluster and block on the cluster-deleted waiter. -/
def eksEvents (pids : List String) (cs : List String) : List Event :=
  cs.flatMap (fun c =>
    if isProjectResource pids c then [Event.deleteCluster c, Event.waitClusterDeleted c]
    else [])

/-- Success-path model of the log-group phase (nuke.py lines 240-250):
the listing is prefix-filtered server-side, then every matching group is
deleted. -/
def logGroupEvents (pids : List String) (lgs : List String) : List Event :=
  ((lgs.filter (fun s => strStarts "/aws/eks/" s)).filter
      (fun lg => isProjectResource pids lg)).map Event.deleteLogGroup

/-- Model of the OIDC phase (nuke.py lines 374-390): a provider is
deleted when a Name tag value matches the project, or when "eks" occurs
in its ARN. -/
def oidcEvents (pids : List String) (os : List OidcProvider) : List Event :=
  os.flatMap (fun o =>
    if o.tags.any (fun t => t.key == "Name" && isProjectResource pids t.value)
        || hasSubstr "eks" o.arn then
      [Event.deleteOidc o.arn]
    else [])

/-- Model of the IAM-role phase (nuke.py lines 393-424): a role is
targeted when it matches the project or its name contains
"eks-cluster-role"; targeted roles have managed policies detached,
inline policies deleted, instance profiles detached and deleted, then
the role itself deleted. -/
def roleEvents (pids : List String) (rs : List IamRole) : List Event :=
  rs.flatMap (fun r =>
    if isProjectResource pids r.roleName || hasSubstr "eks-cluster-role" r.roleName then
      r.attachedPolicies.map (Event.detachRolePolicy r.roleName)
        ++ r.inlinePolicies.map (Event.deleteRolePolicy r.roleName)
        ++ r.instanceProfiles.flatMap (fun pr =>
            [Event.removeRoleFromProfile pr r.roleName, Event.deleteInstanceProfile pr])
        ++ [Event.deleteRole r.roleName]
    else [])

/-- Model of the customer-managed-policy phase (nuke.py lines 427-445):
a policy is targeted when it matches the project or its name contains
"AWSLoadBalancerController"; non-default versions are deleted first,
then the policy. -/
def policyEvents (pids : List String) (ps : List IamPolicy) : List Event :=
  ps.flatMap (fun p =>
    if isProjectResource pids p.policyName
        || hasSubstr "AWSLoadBalancerController" p.policyName then
      (p.versions.filter (fun ver => !ver.2)).map (fun ver => Event.deletePolicyVersion p.arn ver.1)
        ++ [Event.deletePolicy p.arn]
    else [])

/-- Model of `cleanup_kms` (nuke.py lines 49-81): matching aliases are
deleted; an alias's target key is scheduled for deletion when not
already pending deletion or unavailable. -/
def kmsEvents (pids : List String) (as_ : List KmsAlias) : List Event :=
  as_.flatMap (fun a =>
    if isProjectResource pids a.aliasName then
      [Event.deleteKmsAlias a.aliasName] ++
        (match a.targetKeyId with
         | none => []
         | some k =>
           if a.keyState != "PendingDeletion" && a.keyState != "Unavailable" then
             [Event.scheduleKeyDeletion k]
           else [])
    else [])

/-- The VPCs `force_delete_infrastructure` matches: the `describe_vpcs`
call filters server-side on a Name tag containing any identifier
(nuke.py lines 254-258). -/
def matchedVpcs (pids : List String) (env : AwsEnv) : List VpcEnv :=
  env.vpcs.filter (fun v => pids.any (fun pid => hasSubstr pid v.nameTag))

/-- Model of the full `force_delete_infrastructure`
(nuke.py lines 217-448) on the success path: EKS clusters, log groups,
the per-VPC loop, then OIDC providers, IAM roles, customer-managed
policies and KMS aliases.  `none` models a NAT poll loop that has not
terminated within `fuel` polls. -/
def forceDeleteTrace (pids : List String) (env : AwsEnv) (fuel : Nat) :
    Option (List Event) :=
  match vpcSegments pids env fuel (matchedVpcs pids env) with
  | none => none
  | some vp =>
    some (eksEvents pids env.clusters ++ logGroupEvents pids env.logGroups ++ vp
      ++ oidcEvents pids env.oidcs ++ roleEvents pids env.roles
      ++ policyEvents pids env.policies ++ kmsEvents pids env.kmsAliases)

/-- Status a verification-report entry can carry. -/
inductive VStatus where
  | deleted
  | deleting
  | actionRequired
  | checkFailed
deriving DecidableEq, Repr

/-- Model of the `check_status` helper inside `verify_cleanup`
(nuke.py lines 456-462): zero count is Deleted, a non-zero count with
the in-progress flag is Deleting, any other non-zero count is
ActionRequired. -/
def checkStatus (count : Nat) (isDeleting : Bool) : VStatus :=
  if count = 0 then VStatus.deleted
  else if isDeleting then VStatus.deleting
  else VStatus.actionRequired

/-- Which listing calls of `verify_cleanup` raise, injected per call.
Only injection points that exist in the source are modelled. -/
structure ListFailures where
  eks : Bool
  elb : Bool
  elbv2 : Bool
  natActive : Bool
  natDeleting : Bool
  vpc : Bool
  subnet : Bool
  sg : Bool
  nacl : Bool
  iamRoles : Bool
  iamPolicies : Bool
deriving DecidableEq, Repr

/-- No listing call fails. -/
def noListFailures : ListFailures :=
  ⟨false, false, false, false, false, false, false, false, false, false, false⟩

/-- Model of `AWSCleaner.verify_cleanup` (nuke.py lines 450-541).  The
EKS listing and the two IAM listings are inside `try` blocks, so their
failures produce CheckFailed entries; every other listing call
(load balancers, NAT gateways, VPCs, subnets, security groups, network
ACLs) has no handler, so a failure there raises out of the reporter —
modelled by the `none` result.  The reporter takes only the live
environment: it has no access to, and cannot be influenced by, any
outcome the deletion engine reported.  The load-balancer, NAT and VPC
categories are counted account-wide, not filtered by project
identifiers (the source comments call this a simplified check). -/
def verifyCleanup (pids : List String) (env : AwsEnv) (f : ListFailures) :
    Option (List (String × VStatus)) :=
  let eksEntry :=
    ("EKS Clusters",
      if f.eks then VStatus.checkFailed
      else checkStatus (env.clusters.filter (fun c => isProjectResource pids c)).length false)
  if f.elb || f.elbv2 then none
  else
    let lbEntry := ("Load Balancers", checkStatus (env.clbs.length + env.albs.length) false)
    if f.natActive || f.natDeleting then none
    else
      let natsActive :=
        env.nats.filter (fun n => n.state == "available" || n.state == "pending")
      let natsDeleting := env.nats.filter (fun n => n.state == "deleting")
      let natEntry :=
        ("NAT Gateways",
          if !natsActive.isEmpty then VStatus.actionRequired
          else if !natsDeleting.isEmpty then VStatus.deleting
          else VStatus.deleted)
      if f.vpc then none
      else
        let customVpcs := env.vpcs.filter (fun v => !v.isDefault)
        let vpcEntry := ("Custom VPCs", checkStatus customVpcs.length false)
        if !customVpcs.isEmpty && f.subnet then none
        else
          let subnetEntry :=
            ("Subnets",
              if customVpcs.isEmpty then VStatus.deleted
              else checkStatus (customVpcs.flatMap (fun v => v.subnets)).length false)
          if !customVpcs.isEmpty && f.sg then none
          else
            let sgEntry :=
              ("Security Groups",
                if customVpcs.isEmpty then VStatus.deleted
                else
                  checkStatus
                    ((customVpcs.flatMap (fun v => v.secGroups)).filter
                        (fun sg => sg.groupName != "default")).length false)
            if !customVpcs.isEmpty && f.nacl then none
            else
              let naclEntry :=
                ("Network ACLs",
                  if customVpcs.isEmpty then VStatus.deleted
                  else
                    checkStatus
                      ((customVpcs.flatMap (fun v => v.nacls)).filter
                          (fun n => !n.2)).length false)
              let iamEntries :=
                if f.iamRoles then [("IAM Checks", VStatus.checkFailed)]
                else
                  let rolesEntry :=
                    ("IAM Roles",
                      checkStatus
                        (env.roles.filter (fun r => isProjectResource pids r.roleName)).length
                        false)
                  if f.iamPolicies then [rolesEntry, ("IAM Checks", VStatus.checkFailed)]
                  else
                    [rolesEntry,
                      ("IAM Policies",
                        checkStatus
                          (env.policies.filter
                              (fun p => isProjectResource pids p.policyName)).length
                          false)]
              some ([eksEntry, lbEntry, natEntry, vpcEntry, subnetEntry, sgEntry, naclEntry]
                ++ iamEntries)

/-- True when the report contains no ActionRequired entry. -/
def noActionRequired (rep : List (String × VStatus)) : Bool :=
  rep.all (fun e => e.2 != VStatus.actionRequired)

/-- Trace-ordering combinator: `beforeAll p q tr` is true when no
q-event occurs strictly before the first p-event of `tr` — that is,
every q-event in the trace is preceded by some p-event. -/
def beforeAll {α : Type} (p q : α → Bool) : List α → Bool
  | [] => true
  | e :: rest => if p e then true else !q e && beforeAll p q rest

/-- Trace combinator: skip events up to and including the first p-event,
then require `cont` of the remaining suffix; true when no p-event
occurs. -/
def afterFirst {α : Type} (p : α → Bool) (cont : List α → Bool) : List α → Bool
  | [] => true
  | e :: rest => if p e then cont rest else afterFirst p cont rest

/-- State update of the poll backoff scanner: after a poll that still
observed active gateways the engine must sleep next, so the scanner
state becomes true exactly for a poll event with a non-empty
observation. -/
def pollExpect : Event → Bool
  | Event.pollNats _ obs => !obs.isEmpty
  | _ => false

/-- Scanner for the poll backoff discipline.  State `true` means the
previous event was a poll that still observed active gateways, so the
very next event must be a 5-second sleep.  Returns the final state, or
`none` when the discipline is violated. -/
def scanSleep : Bool → List Event → Option Bool
  | expect, [] => some expect
  | expect, e :: rest =>
    if expect then (if e == Event.sleep 5 then scanSleep false rest else none)
    else scanSleep (pollExpect e) rest

/-- An event that observes that the boundary `v` has zero NAT gateways
remaining in the states pending/available/deleting: either the initial
`describe_nat_gateways` listing whose result contains no gateway in
those states, or a poll (already state-filtered server-side) that
returned the empty list. -/
def observesNoActiveNat (v : String) : Event → Bool
  | Event.listNats v' obs =>
    v' == v
      && (obs.filter (fun n =>
            n.state == "pending" || n.state == "available" || n.state == "deleting")).isEmpty
  | Event.pollNats v' obs => v' == v && obs.isEmpty
  | _ => false

/-- A delete-subnet call for boundary `v`. -/
def isDeleteSubnetOf (v : String) : Event → Bool
  | Event.deleteSubnet v' _ => v' == v
  | _ => false

/-- An ingress-revocation call for group `g` of boundary `v`. -/
def isRevokeIngressOf (v g : String) : Event → Bool
  | Event.revokeIngress v' g' => v' == v && g' == g
  | _ => false

/-- An egress-revocation call for group `g` of boundary `v`. -/
def isRevokeEgressOf (v g : String) : Event → Bool
  | Event.revokeEgress v' g' => v' == v && g' == g
  | _ => false

/-- A delete call for security group `g` of boundary `v`. -/
def isDeleteSgOf (v g : String) : Event → Bool
  | Event.deleteSg v' g' => v' == v && g' == g
  | _ => false

/-- Any security-group mutation (revoke or delete) of group `g` of
boundary `v`. -/
def touchesSg (v g : String) (e : Event) : Bool :=
  isRevokeIngressOf v g e || isRevokeEgressOf v g e || isDeleteSgOf v g e

theorem beforeAll_of_noq {α : Type} (p q : α → Bool) :
    ∀ l : List α, (∀ e ∈ l, q e = false) → beforeAll p q l = true := by
  intro l
  induction l with
  | nil => intro _; rfl
  | cons e rest ih =>
    intro h
    simp only [beforeAll]
    by_cases hp : p e = true
    · simp [hp]
    · simp [hp, h e (by simp), ih (fun x hx => h x (by simp [hx]))]

theorem beforeAll_append_of_noq {α : Type} (p q : α → Bool) :
    ∀ l1 l2 : List α, (∀ e ∈ l1, q e = false) → beforeAll p q l2 = true →
      beforeAll p q (l1 ++ l2) = true := by
  intro l1
  induction l1 with
  | nil => intro l2 _ h2; simpa using h2
  | cons e rest ih =>
    intro l2 h h2
    simp only [List.cons_append, beforeAll]
    by_cases hp : p e = true
    · simp [hp]
    · simp [hp, h e (by simp), ih l2 (fun x hx => h x (by simp [hx])) h2]

theorem beforeAll_of_mem_p {α : Type} (p q : α → Bool) :
    ∀ (l1 l2 : List α) (e0 : α), e0 ∈ l1 → p e0 = true → (∀ e ∈ l1, q e = false) →
      beforeAll p q (l1 ++ l2) = true := by
  intro l1
  induction l1 with
  | nil => intro l2 e0 h0; simp at h0
  | cons e rest ih =>
    intro l2 e0 h0 hp hq
    simp only [List.cons_append, beforeAll]
    by_cases hpe : p e = true
    · simp [hpe]
    · have he0 : e0 ∈ rest := by
        rcases List.mem_cons.mp h0 with rfl | h
        · exact absurd hp hpe
        · exact h
      simp [hpe, hq e (by simp), ih l2 e0 he0 hp (fun x hx => hq x (by simp [hx]))]

theorem afterFirst_append_of_nop {α : Type} (p : α → Bool) (cont : List α → Bool) :
    ∀ l1 l2 : List α, (∀ e ∈ l1, p e = false) → afterFirst p cont l2 = true →
      afterFirst p cont (l1 ++ l2) = true := by
  intro l1
  induction l1 with
  | nil => intro l2 _ h2; simpa using h2
  | cons e rest ih =>
    intro l2 h h2
    simp only [List.cons_append, afterFirst]
    simp [h e (by simp), ih l2 (fun x hx => h x (by simp [hx])) h2]

theorem scanSleep_append :
    ∀ (l1 : List Event) (b : Bool) (l2 : List Event),
      scanSleep b (l1 ++ l2) = (scanSleep b l1).bind (fun b2 => scanSleep b2 l2) := by
  intro l1
  induction l1 with
  | nil => intro b l2; simp [scanSleep]
  | cons e rest ih =>
    intro b l2
    cases b with
    | false => simpa [scanSleep] using ih (pollExpect e) l2
    | true =>
      by_cases he : (e == Event.sleep 5) = true
      · simpa [scanSleep, he] using ih false l2
      · simp [scanSleep, he]

theorem scanSleep_false_of_no_poll :
    ∀ l : List Event, (∀ e ∈ l, pollExpect e = false) → scanSleep false l = some false := by
  intro l
  induction l with
  | nil => intro _; rfl
  | cons e rest ih =>
    intro h
    simp only [scanSleep, if_neg (by simp : ¬ false = true)]
    rw [h e (by simp)]
    exact ih (fun x hx => h x (by simp [hx]))

theorem scanSleep_false_append (l1 l2 : List Event)
    (h1 : scanSleep false l1 = some false) (h2 : scanSleep false l2 = some false) :
    scanSleep false (l1 ++ l2) = some false := by
  rw [scanSleep_append l1 false l2, h1]
  simpa using h2

theorem natPollLoop_shape :
    ∀ (fuel : Nat) (obs : Nat → List String) (v : String) (l : List Event),
      natPollLoop obs v fuel = some l →
      ∀ e ∈ l, (∃ o, e = Event.pollNats v o) ∨ e = Event.sleep 5 := by
  intro fuel
  induction fuel with
  | zero => intro obs v l h; simp [natPollLoop] at h
  | succ n ih =>
    intro obs v l h
    simp only [natPollLoop] at h
    by_cases h0 : (obs 0).isEmpty = true
    · rw [if_pos h0] at h
      obtain rfl : [Event.pollNats v (obs 0)] = l := by injection h
      intro e he
      obtain rfl : e = Event.pollNats v (obs 0) := by simpa using he
      exact Or.inl ⟨obs 0, rfl⟩
    · rw [if_neg h0] at h
      cases hrec : natPollLoop (fun n => obs (n + 1)) v n with
      | none => rw [hrec] at h; cases h
      | some rest =>
        rw [hrec] at h
        obtain rfl : Event.pollNats v (obs 0) :: Event.sleep 5 :: rest = l := by injection h
        intro e he
        rcases List.mem_cons.mp he with rfl | he
        · exact Or.inl ⟨obs 0, rfl⟩
        rcases List.mem_cons.mp he with rfl | he
        · exact Or.inr rfl
        · exact ih _ v rest hrec e he

theorem natPollLoop_mem_empty :
    ∀ (fuel : Nat) (obs : Nat → List String) (v : String) (l : List Event),
      natPollLoop obs v fuel = some l → Event.pollNats v [] ∈ l := by
  intro fuel
  induction fuel with
  | zero => intro obs v l h; simp [natPollLoop] at h
  | succ n ih =>
    intro obs v l h
    simp only [natPollLoop] at h
    by_cases h0 : (obs 0).isEmpty = true
    · rw [if_pos h0] at h
      obtain rfl : [Event.pollNats v (obs 0)] = l := by injection h
      rw [List.isEmpty_iff.mp h0]
      simp
    · rw [if_neg h0] at h
      cases hrec : natPollLoop (fun n => obs (n + 1)) v n with
      | none => rw [hrec] at h; cases h
      | some rest =>
        rw [hrec] at h
        obtain rfl : Event.pollNats v (obs 0) :: Event.sleep 5 :: rest = l := by injection h
        have := ih _ v rest hrec
        simp [this]

theorem natPollLoop_scanSleep :
    ∀ (fuel : Nat) (obs : Nat → List String) (v : String) (l : List Event),
      natPollLoop obs v fuel = some l → scanSleep false l = some false := by
  intro fuel
  induction fuel with
  | zero => intro obs v l h; simp [natPollLoop] at h
  | succ n ih =>
    intro obs v l h
    simp only [natPollLoop] at h
    by_cases h0 : (obs 0).isEmpty = true
    · rw [if_pos h0] at h
      obtain rfl : [Event.pollNats v (obs 0)] = l := by injection h
      simp [scanSleep, pollExpect, h0]
    · rw [if_neg h0] at h
      cases hrec : natPollLoop (fun n => obs (n + 1)) v n with
      | none => rw [hrec] at h; cases h
      | some rest =>
        rw [hrec] at h
        obtain rfl : Event.pollNats v (obs 0) :: Event.sleep 5 :: rest = l := by injection h
        have hrest := ih _ v rest hrec
        simp [scanSleep, pollExpect, h0, hrest]

/-- Shape of every event the global (non-VPC) phases can emit. -/
def globalShape (e : Event) : Prop :=
  (∃ c, e = Event.deleteCluster c) ∨ (∃ c, e = Event.waitClusterDeleted c)
    ∨ (∃ n, e = Event.deleteLogGroup n) ∨ (∃ a, e = Event.deleteOidc a)
    ∨ (∃ r pa, e = Event.detachRolePolicy r pa) ∨ (∃ r pn, e = Event.deleteRolePolicy r pn)
    ∨ (∃ pr r, e = Event.removeRoleFromProfile pr r) ∨ (∃ pr, e = Event.deleteInstanceProfile pr)
    ∨ (∃ r, e = Event.deleteRole r) ∨ (∃ a ver, e = Event.deletePolicyVersion a ver)
    ∨ (∃ a, e = Event.deletePolicy a) ∨ (∃ a, e = Event.deleteKmsAlias a)
    ∨ (∃ k, e = Event.scheduleKeyDeletion k)

theorem eksEvents_shape (pids : List String) (cs : List String) :
    ∀ e ∈ eksEvents pids cs, globalShape e := by
  intro e he
  simp only [eksEvents, List.mem_flatMap] at he
  obtain ⟨c, _, he⟩ := he
  split at he
  · rcases List.mem_cons.mp he with rfl | he
    · exact Or.inl ⟨c, rfl⟩
    · obtain rfl : e = Event.waitClusterDeleted c := by simpa using he
      exact Or.inr (Or.inl ⟨c, rfl⟩)
  · simp at he

theorem logGroupEvents_shape (pids : List String) (lgs : List String) :
    ∀ e ∈ logGroupEvents pids lgs, globalShape e := by
  intro e he
  simp only [logGroupEvents, List.mem_map] at he
  obtain ⟨n, _, rfl⟩ := he
  exact Or.inr (Or.inr (Or.inl ⟨n, rfl⟩))

theorem oidcEvents_shape (pids : List String) (os : List OidcProvider) :
    ∀ e ∈ oidcEvents pids os, globalShape e := by
  intro e he
  simp only [oidcEvents, List.mem_flatMap] at he
  obtain ⟨o, _, he⟩ := he
  split at he
  · obtain rfl : e = Event.deleteOidc o.arn := by simpa using he
    exact Or.inr (Or.inr (Or.inr (Or.inl ⟨o.arn, rfl⟩)))
  · simp at he

theorem roleEvents_shape (pids : List String) (rs : List IamRole) :
    ∀ e ∈ roleEvents pids rs, globalShape e := by
  intro e he
  simp only [roleEvents, List.mem_flatMap] at he
  obtain ⟨r, _, he⟩ := he
  split at he
  · simp only [List.mem_append, List.mem_map, List.mem_flatMap] at he
    rcases he with ((⟨pa, _, rfl⟩ | ⟨pn, _, rfl⟩) | ⟨pr, _, he⟩) | he
    · exact Or.inr (Or.inr (Or.inr (Or.inr (Or.inl ⟨r.roleName, pa, rfl⟩))))
    · exact Or.inr (Or.inr (Or.inr (Or.inr (Or.inr (Or.inl ⟨r.roleName, pn, rfl⟩)))))
    · rcases List.mem_cons.mp he with rfl | he
      · exact Or.inr (Or.inr (Or.inr (Or.inr (Or.inr (Or.inr (Or.inl ⟨pr, r.roleName, rfl⟩))))))
      · obtain rfl : e = Event.deleteInstanceProfile pr := by simpa using he
        exact Or.inr (Or.inr (Or.inr (Or.inr (Or.inr (Or.inr (Or.inr (Or.inl ⟨pr, rfl⟩)))))))
    · obtain rfl : e = Event.deleteRole r.roleName := by simpa using he
      exact Or.inr (Or.inr (Or.inr (Or.inr (Or.inr (Or.inr (Or.inr (Or.inr
        (Or.inl ⟨r.roleName, rfl⟩))))))))
  · simp at he

theorem policyEvents_shape (pids : List String) (ps : List IamPolicy) :
    ∀ e ∈ policyEvents pids ps, globalShape e := by
  intro e he
  simp only [policyEvents, List.mem_flatMap] at he
  obtain ⟨p, _, he⟩ := he
  split at he
  · simp only [List.mem_append, List.mem_map] at he
    rcases he with ⟨ver, _, rfl⟩ | he
    · exact Or.inr (Or.inr (Or.inr (Or.inr (Or.inr (Or.inr (Or.inr (Or.inr (Or.inr
        (Or.inl ⟨p.arn, ver.1, rfl⟩)))))))))
    · obtain rfl : e = Event.deletePolicy p.arn := by simpa using he
      exact Or.inr (Or.inr (Or.inr (Or.inr (Or.inr (Or.inr (Or.inr (Or.inr (Or.inr (Or.inr
        (Or.inl ⟨p.arn, rfl⟩))))))))))
  · simp at he

theorem kmsEvents_shape (pids : List String) (as_ : List KmsAlias) :
    ∀ e ∈ kmsEvents pids as_, globalShape e := by
  intro e he
  simp only [kmsEvents, List.mem_flatMap] at he
  obtain ⟨a, _, he⟩ := he
  split at he
  · simp only [List.mem_append] at he
    rcases he with he | he
    · obtain rfl : e = Event.deleteKmsAlias a.aliasName := by simpa using he
      exact Or.inr (Or.inr (Or.inr (Or.inr (Or.inr (Or.inr (Or.inr (Or.inr (Or.inr (Or.inr
        (Or.inr (Or.inl ⟨a.aliasName, rfl⟩)))))))))))
    · split at he
      · simp at he
      · rename_i k hkeq
        split at he
        · obtain rfl : e = Event.scheduleKeyDeletion k := by simpa using he
          exact Or.inr (Or.inr (Or.inr (Or.inr (Or.inr (Or.inr (Or.inr (Or.inr (Or.inr (Or.inr
            (Or.inr (Or.inr ⟨k, rfl⟩)))))))))))
        · simp at he
  · simp at he

/-- Every global-phase event is inert for the per-boundary trace
predicates: it is not a subnet delete, not a security-group mutation,
and not a NAT poll. -/
theorem globalShape_benign (e : Event) (h : globalShape e) (v g : String) :
    isDeleteSubnetOf v e = false ∧ isRevokeIngressOf v g e = false
      ∧ isRevokeEgressOf v g e = false ∧ isDeleteSgOf v g e = false
      ∧ pollExpect e = false := by
  rcases h with ⟨c, rfl⟩ | ⟨c, rfl⟩ | ⟨n, rfl⟩ | ⟨a, rfl⟩ | ⟨r, pa, rfl⟩ | ⟨r, pn, rfl⟩
    | ⟨pr, r, rfl⟩ | ⟨pr, rfl⟩ | ⟨r, rfl⟩ | ⟨a, ver, rfl⟩ | ⟨a, rfl⟩ | ⟨a, rfl⟩ | ⟨k, rfl⟩ <;>
    exact ⟨rfl, rfl, rfl, rfl, rfl⟩

/-- Every event of the security-group phase is either a mutation of a
non-default listed group or the fixed 5-second sleep between the two
passes. -/
theorem sgPhase_event_cases (vv : String) (sgs : List SecGroup) :
    ∀ e ∈ sgPhase vv sgs,
      (∃ sg ∈ sgs, sg.groupName ≠ "default" ∧
        (e = Event.revokeIngress vv sg.groupId ∨ e = Event.revokeEgress vv sg.groupId
          ∨ e = Event.deleteSg vv sg.groupId))
      ∨ e = Event.sleep 5 := by
  intro e he
  simp only [sgPhase, List.mem_append, List.mem_flatMap] at he
  rcases he with (⟨sg, hsg, he⟩ | he) | ⟨sg, hsg, he⟩
  · simp only [revokeEventsOf] at he
    split at he
    · simp at he
    · rename_i hdef
      have hne : sg.groupName ≠ "default" := by simpa using hdef
      simp only [List.mem_append] at he
      rcases he with he | he
      · split at he
        · simp at he
        · obtain rfl : e = Event.revokeIngress vv sg.groupId := by simpa using he
          exact Or.inl ⟨sg, hsg, hne, Or.inl rfl⟩
      · split at he
        · simp at he
        · obtain rfl : e = Event.revokeEgress vv sg.groupId := by simpa using he
          exact Or.inl ⟨sg, hsg, hne, Or.inr (Or.inl rfl)⟩
  · obtain rfl : e = Event.sleep 5 := by simpa using he
    exact Or.inr rfl
  · simp only [deleteSgEventsOf] at he
    split at he
    · simp at he
    · rename_i hdef
      have hne : sg.groupName ≠ "default" := by simpa using hdef
      obtain rfl : e = Event.deleteSg vv sg.groupId := by simpa using he
      exact Or.inl ⟨sg, hsg, hne, Or.inr (Or.inr rfl)⟩

/-- An event that is neither a subnet delete nor a security-group
mutation, for any boundary and group. -/
def noSubnetNoSg (e : Event) : Prop :=
  ∀ v g, isDeleteSubnetOf v e = false ∧ isRevokeIngressOf v g e = false
    ∧ isRevokeEgressOf v g e = false ∧ isDeleteSgOf v g e = false

/-- An event that is not a security-group mutation, for any boundary
and group. -/
def noSgEvent (e : Event) : Prop :=
  ∀ v g, isRevokeIngressOf v g e = false ∧ isRevokeEgressOf v g e = false
    ∧ isDeleteSgOf v g e = false

theorem instEvents_benign (v : VpcEnv) :
    ∀ e ∈ instEvents v, noSubnetNoSg e ∧ pollExpect e = false := by
  intro e he
  simp only [instEvents] at he
  split at he
  · simp at he
  · rcases List.mem_cons.mp he with rfl | he
    · exact ⟨fun v' g => ⟨rfl, rfl, rfl, rfl⟩, rfl⟩
    · obtain rfl : e = Event.waitInstancesTerminated v.vpcId := by simpa using he
      exact ⟨fun v' g => ⟨rfl, rfl, rfl, rfl⟩, rfl⟩

theorem natDeleteEvents_benign (env : AwsEnv) (v : VpcEnv) :
    ∀ e ∈ natDeleteEvents env v, noSubnetNoSg e ∧ pollExpect e = false := by
  intro e he
  obtain ⟨n, _, rfl⟩ := List.mem_map.mp he
  exact ⟨fun v' g => ⟨rfl, rfl, rfl, rfl⟩, rfl⟩

theorem eipEvents_benign (pids : List String) (env : AwsEnv) :
    ∀ e ∈ eipEvents pids env, noSubnetNoSg e ∧ pollExpect e = false := by
  intro e he
  obtain ⟨a, _, rfl⟩ := List.mem_map.mp he
  exact ⟨fun v' g => ⟨rfl, rfl, rfl, rfl⟩, rfl⟩

theorem igwEvents_benign (v : VpcEnv) :
    ∀ e ∈ igwEvents v, noSubnetNoSg e ∧ pollExpect e = false := by
  intro e he
  simp only [igwEvents, List.mem_flatMap] at he
  obtain ⟨g, _, he⟩ := he
  rcases List.mem_cons.mp he with rfl | he
  · exact ⟨fun v' g' => ⟨rfl, rfl, rfl, rfl⟩, rfl⟩
  · obtain rfl : e = Event.deleteIgw g := by simpa using he
    exact ⟨fun v' g' => ⟨rfl, rfl, rfl, rfl⟩, rfl⟩

theorem subnetEvents_benign (v : VpcEnv) :
    ∀ e ∈ subnetEvents v, noSgEvent e ∧ pollExpect e = false
      ∧ (∀ v', v.vpcId ≠ v' → isDeleteSubnetOf v' e = false) := by
  intro e he
  obtain ⟨sn, _, rfl⟩ := List.mem_map.mp he
  refine ⟨fun v' g => ⟨rfl, rfl, rfl⟩, rfl, fun v' hne => ?_⟩
  simpa [isDeleteSubnetOf] using beq_eq_false_iff_ne.mpr hne

theorem rtEvents_benign (v : VpcEnv) :
    ∀ e ∈ rtEvents v, noSubnetNoSg e ∧ pollExpect e = false := by
  intro e he
  obtain ⟨rt, _, rfl⟩ := List.mem_map.mp he
  exact ⟨fun v' g => ⟨rfl, rfl, rfl, rfl⟩, rfl⟩

theorem sgPhase_no_poll (vv : String) (sgs : List SecGroup) :
    ∀ e ∈ sgPhase vv sgs, pollExpect e = false := by
  intro e he
  rcases sgPhase_event_cases vv sgs e he with ⟨sg, _, _, rfl | rfl | rfl⟩ | rfl <;> rfl

/-- Structural decomposition of a successful per-VPC segment: a first
part that already contains an observation of zero active NAT gateways
and contains no subnet delete and no security-group mutation, then a
middle part (EIP, IGW, subnet, route-table deletes) that contains no
security-group mutation, then the two-pass security-group phase, then
the VPC delete. -/
theorem vpcSegment_full_decomp (pids : List String) (env : AwsEnv) (fuel : Nat) (ve : VpcEnv)
    (sv : List Event) (h : vpcSegment pids env fuel ve = some sv) :
    ∃ s1 mid,
      sv = s1 ++ (mid ++ (sgPhase ve.vpcId ve.secGroups ++ [Event.deleteVpc ve.vpcId]))
      ∧ (∃ e0 ∈ s1, observesNoActiveNat ve.vpcId e0 = true)
      ∧ (∀ e ∈ s1, noSubnetNoSg e)
      ∧ (∀ e ∈ mid, noSgEvent e ∧ ∀ v', ve.vpcId ≠ v' → isDeleteSubnetOf v' e = false) := by
  unfold vpcSegment at h
  split at h
  · cases h
  · rename_i pollPart hpoll
    injection h with h
    refine ⟨instEvents ve ++ ([Event.listNats ve.vpcId (natObsOf env ve)]
        ++ (natDeleteEvents env ve ++ pollPart)),
      eipEvents pids env ++ (igwEvents ve ++ (subnetEvents ve ++ rtEvents ve)), ?_, ?_, ?_, ?_⟩
    · rw [← h]; simp [List.append_assoc]
    · by_cases h0 : (natObsOf env ve).isEmpty = true
      · refine ⟨Event.listNats ve.vpcId (natObsOf env ve), by simp, ?_⟩
        simp [observesNoActiveNat, List.isEmpty_iff.mp h0]
      · rw [if_neg h0] at hpoll
        exact ⟨Event.pollNats ve.vpcId [],
          by simp [natPollLoop_mem_empty _ _ _ _ hpoll],
          by simp [observesNoActiveNat]⟩
    · intro e he
      simp only [List.mem_append] at he
      rcases he with he | he | he | he
      · exact (instEvents_benign ve e he).1
      · obtain rfl : e = Event.listNats ve.vpcId (natObsOf env ve) := by simpa using he
        exact fun v' g => ⟨rfl, rfl, rfl, rfl⟩
      · exact (natDeleteEvents_benign env ve e he).1
      · split at hpoll
        · obtain rfl : [] = pollPart := by injection hpoll
          simp at he
        · rcases natPollLoop_shape _ _ _ _ hpoll e he with ⟨o, rfl⟩ | rfl
          · exact fun v' g => ⟨rfl, rfl, rfl, rfl⟩
          · exact fun v' g => ⟨rfl, rfl, rfl, rfl⟩
    · intro e he
      simp only [List.mem_append] at he
      rcases he with he | he | he | he
      · exact ⟨fun v' g => ((eipEvents_benign pids env e he).1 v' g).2, fun v' _ =>
          ((eipEvents_benign pids env e he).1 v' "").1⟩
      · exact ⟨fun v' g => ((igwEvents_benign ve e he).1 v' g).2, fun v' _ =>
          ((igwEvents_benign ve e he).1 v' "").1⟩
      · exact ⟨(subnetEvents_benign ve e he).1, (subnetEvents_benign ve e he).2.2⟩
      · exact ⟨fun v' g => ((rtEvents_benign ve e he).1 v' g).2, fun v' _ =>
          ((rtEvents_benign ve e he).1 v' "").1⟩

theorem touchesSg_eq_false (v g : String) (e : Event)
    (h1 : isRevokeIngressOf v g e = false) (h2 : isRevokeEgressOf v g e = false)
    (h3 : isDeleteSgOf v g e = false) : touchesSg v g e = false := by
  simp [touchesSg, h1, h2, h3]

/-- A segment of a VPC other than `v` issues no subnet delete and no
security-group mutation attributed to `v`. -/
theorem vpcSegment_benign_ne (pids : List String) (env : AwsEnv) (fuel : Nat) (v0 : VpcEnv)
    (s : List Event) (h : vpcSegment pids env fuel v0 = some s) (v : String)
    (hne : v0.vpcId ≠ v) :
    ∀ e ∈ s, isDeleteSubnetOf v e = false
      ∧ ∀ g, isRevokeIngressOf v g e = false ∧ isRevokeEgressOf v g e = false
          ∧ isDeleteSgOf v g e = false := by
  obtain ⟨s1, mid, heq, _, hs1, hmid⟩ := vpcSegment_full_decomp pids env fuel v0 s h
  subst heq
  intro e he
  simp only [List.mem_append] at he
  rcases he with he | he | he | he
  · exact ⟨(hs1 e he v "").1,
      fun g => ⟨(hs1 e he v g).2.1, (hs1 e he v g).2.2.1, (hs1 e he v g).2.2.2⟩⟩
  · exact ⟨(hmid e he).2 v hne, fun g => (hmid e he).1 v g⟩
  · rcases sgPhase_event_cases v0.vpcId v0.secGroups e he with ⟨sg, _, _, rfl | rfl | rfl⟩ | rfl
    · refine ⟨rfl, fun g => ⟨?_, rfl, rfl⟩⟩
      simp [isRevokeIngressOf, beq_eq_false_iff_ne.mpr hne]
    · refine ⟨rfl, fun g => ⟨rfl, ?_, rfl⟩⟩
      simp [isRevokeEgressOf, beq_eq_false_iff_ne.mpr hne]
    · refine ⟨rfl, fun g => ⟨rfl, rfl, ?_⟩⟩
      simp [isDeleteSgOf, beq_eq_false_iff_ne.mpr hne]
    · exact ⟨rfl, fun g => ⟨rfl, rfl, rfl⟩⟩
  · obtain rfl : e = Event.deleteVpc v0.vpcId := by simpa using he
    exact ⟨rfl, fun g => ⟨rfl, rfl, rfl⟩⟩

/-- Within its own segment, the group named "default" is never revoked
or deleted (given unique group ids in the listing). -/
theorem vpcSegment_touches_default (pids : List String) (env : AwsEnv) (fuel : Nat)
    (v0 : VpcEnv) (s : List Event) (h : vpcSegment pids env fuel v0 = some s)
    (hgid : (v0.secGroups.map (fun sg => sg.groupId)).Nodup) (D : SecGroup)
    (hD : D ∈ v0.secGroups) (hDname : D.groupName = "default") :
    ∀ e ∈ s, touchesSg v0.vpcId D.groupId e = false := by
  obtain ⟨s1, mid, heq, _, hs1, hmid⟩ := vpcSegment_full_decomp pids env fuel v0 s h
  subst heq
  intro e he
  simp only [List.mem_append] at he
  rcases he with he | he | he | he
  · have h1 := hs1 e he v0.vpcId D.groupId
    exact touchesSg_eq_false _ _ _ h1.2.1 h1.2.2.1 h1.2.2.2
  · have h1 := (hmid e he).1 v0.vpcId D.groupId
    exact touchesSg_eq_false _ _ _ h1.1 h1.2.1 h1.2.2
  · rcases sgPhase_event_cases v0.vpcId v0.secGroups e he with
      ⟨sg, hsg, hsgname, rfl | rfl | rfl⟩ | rfl
    · have hgne : (sg.groupId == D.groupId) = false := by
        refine beq_eq_false_iff_ne.mpr (fun hgeq => hsgname ?_)
        rw [List.inj_on_of_nodup_map hgid hsg hD hgeq]; exact hDname
      simp [touchesSg, isRevokeIngressOf, isRevokeEgressOf, isDeleteSgOf, hgne]
    · have hgne : (sg.groupId == D.groupId) = false := by
        refine beq_eq_false_iff_ne.mpr (fun hgeq => hsgname ?_)
        rw [List.inj_on_of_nodup_map hgid hsg hD hgeq]; exact hDname
      simp [touchesSg, isRevokeIngressOf, isRevokeEgressOf, isDeleteSgOf, hgne]
    · have hgne : (sg.groupId == D.groupId) = false := by
        refine beq_eq_false_iff_ne.mpr (fun hgeq => hsgname ?_)
        rw [List.inj_on_of_nodup_map hgid hsg hD hgeq]; exact hDname
      simp [touchesSg, isRevokeIngressOf, isRevokeEgressOf, isDeleteSgOf, hgne]
    · exact touchesSg_eq_false _ _ _ rfl rfl rfl
  · obtain rfl : e = Event.deleteVpc v0.vpcId := by simpa using he
    exact touchesSg_eq_false _ _ _ rfl rfl rfl

/-- A successful per-VPC segment respects the poll backoff discipline:
every poll that still observed active gateways is immediately followed
by a 5-second sleep. -/
theorem vpcSegment_scanSleep (pids : List String) (env : AwsEnv) (fuel : Nat) (v0 : VpcEnv)
    (s : List Event) (h : vpcSegment pids env fuel v0 = some s) :
    scanSleep false s = some false := by
  unfold vpcSegment at h
  split at h
  · cases h
  · rename_i pollPart hpoll
    injection h with h
    subst h
    have hpp : scanSleep false pollPart = some false := by
      split at hpoll
      · obtain rfl : [] = pollPart := by injection hpoll
        rfl
      · exact natPollLoop_scanSleep _ _ _ _ hpoll
    simp only [List.append_assoc]
    refine scanSleep_false_append _ _
      (scanSleep_false_of_no_poll _ (fun e he => (instEvents_benign v0 e he).2)) ?_
    refine scanSleep_false_append _ _ (scanSleep_false_of_no_poll _ ?_) ?_
    · intro e he
      obtain rfl : e = Event.listNats v0.vpcId (natObsOf env v0) := by simpa using he
      rfl
    refine scanSleep_false_append _ _
      (scanSleep_false_of_no_poll _ (fun e he => (natDeleteEvents_benign env v0 e he).2)) ?_
    refine scanSleep_false_append _ _ hpp ?_
    refine scanSleep_false_append _ _
      (scanSleep_false_of_no_poll _ (fun e he => (eipEvents_benign pids env e he).2)) ?_
    refine scanSleep_false_append _ _
      (scanSleep_false_of_no_poll _ (fun e he => (igwEvents_benign v0 e he).2)) ?_
    refine scanSleep_false_append _ _
      (scanSleep_false_of_no_poll _ (fun e he => (subnetEvents_benign v0 e he).2.1)) ?_
    refine scanSleep_false_append _ _
      (scanSleep_false_of_no_poll _ (fun e he => (rtEvents_benign v0 e he).2)) ?_
    refine scanSleep_false_append _ _
      (scanSleep_false_of_no_poll _ (sgPhase_no_poll v0.vpcId v0.secGroups)) ?_
    refine scanSleep_false_of_no_poll _ (fun e he => ?_)
    obtain rfl : e = Event.deleteVpc v0.vpcId := by simpa using he
    rfl

theorem vpcSegments_append_split (pids : List String) (env : AwsEnv) (fuel : Nat) :
    ∀ (l1 l2 : List VpcEnv) (vp : List Event),
      vpcSegments pids env fuel (l1 ++ l2) = some vp →
      ∃ w1 w2, vp = w1 ++ w2 ∧ vpcSegments pids env fuel l1 = some w1
        ∧ vpcSegments pids env fuel l2 = some w2 := by
  intro l1
  induction l1 with
  | nil => intro l2 vp h; exact ⟨[], vp, by simp, rfl, h⟩
  | cons v0 rest ih =>
    intro l2 vp h
    simp only [List.cons_append] at h
    cases hseg : vpcSegment pids env fuel v0 with
    | none => simp [vpcSegments, hseg] at h
    | some s =>
      cases hrest : vpcSegments pids env fuel (rest ++ l2) with
      | none => simp [vpcSegments, hseg, hrest] at h
      | some r =>
        simp only [vpcSegments, hseg, hrest, Option.some.injEq] at h
        subst h
        obtain ⟨w1, w2, rfl, hw1, hw2⟩ := ih l2 r hrest
        exact ⟨s ++ w1, w2, by simp, by simp [vpcSegments, hseg, hw1], hw2⟩

theorem vpcSegments_cons_split (pids : List String) (env : AwsEnv) (fuel : Nat)
    (v0 : VpcEnv) (rest : List VpcEnv) (vp : List Event)
    (h : vpcSegments pids env fuel (v0 :: rest) = some vp) :
    ∃ s w, vp = s ++ w ∧ vpcSegment pids env fuel v0 = some s
      ∧ vpcSegments pids env fuel rest = some w := by
  cases hseg : vpcSegment pids env fuel v0 with
  | none => simp [vpcSegments, hseg] at h
  | some s =>
    cases hrest : vpcSegments pids env fuel rest with
    | none => simp [vpcSegments, hseg, hrest] at h
    | some r =>
      simp only [vpcSegments, hseg, hrest, Option.some.injEq] at h
      exact ⟨s, r, h.symm, rfl, rfl⟩

theorem vpcSegments_benign_ne (pids : List String) (env : AwsEnv) (fuel : Nat) (v : String) :
    ∀ (lst : List VpcEnv) (w : List Event), vpcSegments pids env fuel lst = some w →
      (∀ v0 ∈ lst, v0.vpcId ≠ v) →
      ∀ e ∈ w, isDeleteSubnetOf v e = false
        ∧ ∀ g, isRevokeIngressOf v g e = false ∧ isRevokeEgressOf v g e = false
            ∧ isDeleteSgOf v g e = false := by
  intro lst
  induction lst with
  | nil =>
    intro w h _
    obtain rfl : ([] : List Event) = w := by simpa [vpcSegments] using h
    intro e he
    simp at he
  | cons v0 rest ih =>
    intro w h hall
    obtain ⟨s, r, rfl, hseg, hrest⟩ := vpcSegments_cons_split pids env fuel v0 rest w h
    intro e he
    rcases List.mem_append.mp he with he | he
    · exact vpcSegment_benign_ne pids env fuel v0 s hseg v (hall v0 (by simp)) e he
    · exact ih r hrest (fun x hx => hall x (by simp [hx])) e he

theorem vpcSegments_scanSleep (pids : List String) (env : AwsEnv) (fuel : Nat) :
    ∀ (lst : List VpcEnv) (w : List Event), vpcSegments pids env fuel lst = some w →
      scanSleep false w = some false := by
  intro lst
  induction lst with
  | nil =>
    intro w h
    obtain rfl : ([] : List Event) = w := by simpa [vpcSegments] using h
    rfl
  | cons v0 rest ih =>
    intro w h
    obtain ⟨s, r, rfl, hseg, hrest⟩ := vpcSegments_cons_split pids env fuel v0 rest w h
    exact scanSleep_false_append _ _ (vpcSegment_scanSleep pids env fuel v0 s hseg) (ih r hrest)

theorem vpcSegments_beforeAll_subnet (pids : List String) (env : AwsEnv) (fuel : Nat)
    (v : String) :
    ∀ (lst : List VpcEnv) (w : List Event), vpcSegments pids env fuel lst = some w →
      ∀ (post : List Event), (∀ e ∈ post, isDeleteSubnetOf v e = false) →
      beforeAll (observesNoActiveNat v) (isDeleteSubnetOf v) (w ++ post) = true := by
  intro lst
  induction lst with
  | nil =>
    intro w h post hpost
    obtain rfl : ([] : List Event) = w := by simpa [vpcSegments] using h
    simpa using beforeAll_of_noq _ _ post hpost
  | cons v0 rest ih =>
    intro w h post hpost
    obtain ⟨s, r, rfl, hseg, hrest⟩ := vpcSegments_cons_split _ _ _ _ _ _ h
    by_cases hv : v0.vpcId = v
    · obtain ⟨s1, mid, heq, ⟨e0, he0, hp0⟩, hs1, _⟩ := vpcSegment_full_decomp _ _ _ _ _ hseg
      subst heq
      rw [hv] at hp0
      simp only [List.append_assoc]
      exact beforeAll_of_mem_p _ _ s1 _ e0 he0 hp0 (fun e he => (hs1 e he v "").1)
    · have hbenign := vpcSegment_benign_ne _ _ _ _ _ hseg v hv
      simp only [List.append_assoc]
      exact beforeAll_append_of_noq _ _ s (r ++ post) (fun e he => (hbenign e he).1)
        (ih r hrest post hpost)

/-- Claim C1: for every network boundary processed by the forced
deletion engine, no delete-subnet call for that boundary is issued
before an observation that the boundary has zero NAT gateways remaining
in the states pending/available/deleting.  When the initial NAT listing
for the boundary is non-empty, that observation is produced by the poll
loop (whose polls are the only observations filtered to those states
that can be empty while the loop runs); when the initial listing is
already empty, the listing itself is the observation — the poll-loop
precondition holds trivially.  Moreover the poll repeats with a fixed
5-second backoff: every poll that still observed active gateways is
immediately followed by a 5-second sleep (`scanSleep`). -/
theorem claim_C1_nat_poll_before_subnet_delete :
    ∀ (pids : List String) (env : AwsEnv) (fuel : Nat) (tr : List Event),
      forceDeleteTrace pids env fuel = some tr →
      (∀ v, beforeAll (observesNoActiveNat v) (isDeleteSubnetOf v) tr = true)
      ∧ scanSleep false tr = some false := by
  intro pids env fuel tr h
  unfold forceDeleteTrace at h
  cases hvp : vpcSegments pids env fuel (matchedVpcs pids env) with
  | none => rw [hvp] at h; cases h
  | some vp =>
    rw [hvp] at h
    injection h with h
    subst h
    constructor
    · intro v
      have hpost : ∀ e ∈ oidcEvents pids env.oidcs ++ (roleEvents pids env.roles
          ++ (policyEvents pids env.policies ++ kmsEvents pids env.kmsAliases)),
          isDeleteSubnetOf v e = false := by
        intro e he
        simp only [List.mem_append] at he
        rcases he with he | he | he | he
        · exact (globalShape_benign e (oidcEvents_shape _ _ e he) v "").1
        · exact (globalShape_benign e (roleEvents_shape _ _ e he) v "").1
        · exact (globalShape_benign e (policyEvents_shape _ _ e he) v "").1
        · exact (globalShape_benign e (kmsEvents_shape _ _ e he) v "").1
      simp only [List.append_assoc]
      refine beforeAll_append_of_noq _ _ _ _ (fun e he =>
        (globalShape_benign e (eksEvents_shape _ _ e he) v "").1) ?_
      refine beforeAll_append_of_noq _ _ _ _ (fun e he =>
        (globalShape_benign e (logGroupEvents_shape _ _ e he) v "").1) ?_
      exact vpcSegments_beforeAll_subnet pids env fuel v _ vp hvp _ hpost
    · simp only [List.append_assoc]
      refine scanSleep_false_append _ _ (scanSleep_false_of_no_poll _ (fun e he =>
        (globalShape_benign e (eksEvents_shape _ _ e he) "" "").2.2.2.2)) ?_
      refine scanSleep_false_append _ _ (scanSleep_false_of_no_poll _ (fun e he =>
        (globalShape_benign e (logGroupEvents_shape _ _ e he) "" "").2.2.2.2)) ?_
      refine scanSleep_false_append _ _ (vpcSegments_scanSleep pids env fuel _ vp hvp) ?_
      refine scanSleep_false_append _ _ (scanSleep_false_of_no_poll _ (fun e he =>
        (globalShape_benign e (oidcEvents_shape _ _ e he) "" "").2.2.2.2)) ?_
      refine scanSleep_false_append _ _ (scanSleep_false_of_no_poll _ (fun e he =>
        (globalShape_benign e (roleEvents_shape _ _ e he) "" "").2.2.2.2)) ?_
      refine scanSleep_false_append _ _ (scanSleep_false_of_no_poll _ (fun e he =>
        (globalShape_benign e (policyEvents_shape _ _ e he) "" "").2.2.2.2)) ?_
      exact scanSleep_false_of_no_poll _ (fun e he =>
        (globalShape_benign e (kmsEvents_shape _ _ e he) "" "").2.2.2.2)

/-- A concrete account for the C1 witness: one matched VPC with one
available NAT gateway that disappears after one poll round, and one
subnet. -/
def envC1 : AwsEnv :=
  ⟨[], [], [], [],
    [⟨"nat-1", "vpc-w", "available"⟩],
    (fun v k => if v == "vpc-w" && k == 0 then ["nat-1"] else []),
    [⟨"vpc-w", "omnishop-vpc", false, [], [], ["subnet-1"], [], [], []⟩],
    [], [], [], [], []⟩

/-- The concrete trace the engine produces on `envC1`. -/
def trC1 : List Event := (forceDeleteTrace ["omnishop"] envC1 3).getD []

/-- Witness for claim C1 at a concrete input. -/
theorem claim_C1_witness :
    forceDeleteTrace ["omnishop"] envC1 3 = some trC1
    ∧ beforeAll (observesNoActiveNat "vpc-w") (isDeleteSubnetOf "vpc-w") trC1 = true
    ∧ scanSleep false trC1 = some false :=
  ⟨by decide,
   (claim_C1_nat_poll_before_subnet_delete ["omnishop"] envC1 3 trC1 (by decide)).1 "vpc-w",
   (claim_C1_nat_poll_before_subnet_delete ["omnishop"] envC1 3 trC1 (by decide)).2⟩

theorem afterFirst_of_nop {α : Type} (p : α → Bool) (cont : List α → Bool) :
    ∀ l : List α, (∀ e ∈ l, p e = false) → afterFirst p cont l = true := by
  intro l
  induction l with
  | nil => intro _; rfl
  | cons e rest ih =>
    intro h
    simp only [afterFirst]
    simp [h e (by simp), ih (fun x hx => h x (by simp [hx]))]

/-- Every event of the revocation pass is a revoke call on a listed
group. -/
theorem revokeFlat_cases (vv : String) (sgs : List SecGroup) :
    ∀ e ∈ sgs.flatMap (revokeEventsOf vv),
      ∃ sg ∈ sgs, e = Event.revokeIngress vv sg.groupId
        ∨ e = Event.revokeEgress vv sg.groupId := by
  intro e he
  simp only [List.mem_flatMap] at he
  obtain ⟨sg, hsg, he⟩ := he
  simp only [revokeEventsOf] at he
  split at he
  · simp at he
  · simp only [List.mem_append] at he
    rcases he with he | he
    · split at he
      · simp at he
      · obtain rfl : e = Event.revokeIngress vv sg.groupId := by simpa using he
        exact ⟨sg, hsg, Or.inl rfl⟩
    · split at he
      · simp at he
      · obtain rfl : e = Event.revokeEgress vv sg.groupId := by simpa using he
        exact ⟨sg, hsg, Or.inr rfl⟩

/-- Claim C2: security-group teardown is two-pass per boundary — every
delete call on a group of the boundary is preceded by the ingress (and
egress, when present) revocation call of every non-default rule-bearing
group of that boundary; after the first revocation there is still a
5-second sleep before any group delete of the boundary; and a group
named "default" is never revoked or deleted.  Group ids within a
listing and VPC ids across the account are assumed unique (provider
invariants). -/
theorem claim_C2_sg_two_pass :
    ∀ (pids : List String) (env : AwsEnv) (fuel : Nat) (tr : List Event),
      forceDeleteTrace pids env fuel = some tr →
      (env.vpcs.map (fun v => v.vpcId)).Nodup →
      ∀ ve ∈ env.vpcs, (ve.secGroups.map (fun sg => sg.groupId)).Nodup →
        (∀ A ∈ ve.secGroups, A.groupName ≠ "default" → A.ingressRules ≠ [] →
          ∀ B ∈ ve.secGroups,
            beforeAll (isRevokeIngressOf ve.vpcId A.groupId)
              (isDeleteSgOf ve.vpcId B.groupId) tr = true
            ∧ afterFirst (isRevokeIngressOf ve.vpcId A.groupId)
                (beforeAll (fun e => e == Event.sleep 5)
                  (isDeleteSgOf ve.vpcId B.groupId)) tr = true)
        ∧ (∀ A ∈ ve.secGroups, A.groupName ≠ "default" → A.egressRules ≠ [] →
          ∀ B ∈ ve.secGroups,
            beforeAll (isRevokeEgressOf ve.vpcId A.groupId)
              (isDeleteSgOf ve.vpcId B.groupId) tr = true)
        ∧ (∀ D ∈ ve.secGroups, D.groupName = "default" →
          ∀ e ∈ tr, touchesSg ve.vpcId D.groupId e = false) := by
  intro pids env fuel tr h hvnodup ve hve hgid
  unfold forceDeleteTrace at h
  cases hvp : vpcSegments pids env fuel (matchedVpcs pids env) with
  | none => rw [hvp] at h; cases h
  | some vp =>
    rw [hvp] at h
    injection h with h
    subst h
    have henv_nodup : env.vpcs.Nodup := List.Nodup.of_map _ hvnodup
    by_cases hmem : ve ∈ matchedVpcs pids env
    · -- the boundary is matched: its segment occurs in the trace
      obtain ⟨m1, m2, hm⟩ := List.append_of_mem hmem
      rw [hm] at hvp
      obtain ⟨w1, w2, rfl, hw1seg, hw2seg⟩ :=
        vpcSegments_append_split pids env fuel m1 (ve :: m2) vp hvp
      obtain ⟨sv, w3, rfl, hsv, hw3seg⟩ :=
        vpcSegments_cons_split pids env fuel ve m2 w2 hw2seg
      have hmatched_nodup : (m1 ++ ve :: m2).Nodup := by
        rw [← hm]; exact List.Nodup.filter _ henv_nodup
      rw [List.nodup_append] at hmatched_nodup
      have hnotm1 : ve ∉ m1 := fun hs => hmatched_nodup.2.2 hs (by simp)
      have hnotm2 : ve ∉ m2 := (List.nodup_cons.mp hmatched_nodup.2.1).1
      have hmem_env : ∀ v0 ∈ m1 ++ ve :: m2, v0 ∈ env.vpcs := by
        intro v0 h0
        have : v0 ∈ matchedVpcs pids env := by rw [hm]; exact h0
        exact List.mem_of_mem_filter this
      have hne1 : ∀ v0 ∈ m1, v0.vpcId ≠ ve.vpcId := by
        intro v0 h0 heq
        have h0' : v0 = ve :=
          List.inj_on_of_nodup_map hvnodup (hmem_env v0 (by simp [h0])) hve heq
        exact hnotm1 (h0' ▸ h0)
      have hne2 : ∀ v0 ∈ m2, v0.vpcId ≠ ve.vpcId := by
        intro v0 h0 heq
        have h0' : v0 = ve :=
          List.inj_on_of_nodup_map hvnodup (hmem_env v0 (by simp [h0])) hve heq
        exact hnotm2 (h0' ▸ h0)
      have hw1b := vpcSegments_benign_ne pids env fuel ve.vpcId m1 w1 hw1seg hne1
      have hw3b := vpcSegments_benign_ne pids env fuel ve.vpcId m2 w3 hw3seg hne2
      obtain ⟨s1, mid, heqsv, hobs, hs1, hmid⟩ :=
        vpcSegment_full_decomp pids env fuel ve sv hsv
      have hsg_nodup : ve.secGroups.Nodup := List.Nodup.of_map _ hgid
      refine ⟨?_, ?_, ?_⟩
      · -- ingress-revocation ordering and the post-revocation sleep
        intro A hA hAname hIng B hB
        have hAnameb : (A.groupName == "default") = false := beq_eq_false_iff_ne.mpr hAname
        have hIngE : A.ingressRules.isEmpty = false := by simp [List.isEmpty_iff, hIng]
        obtain ⟨sA1, sA2, hsplitA⟩ := List.append_of_mem hA
        have hAnotm1 : A ∉ sA1 := by
          have := hsg_nodup
          rw [hsplitA, List.nodup_append] at this
          exact fun hs => this.2.2 hs (by simp)
        have hgneA : ∀ sg ∈ sA1, (sg.groupId == A.groupId) = false := by
          intro sg hsg
          refine beq_eq_false_iff_ne.mpr (fun hgeq => hAnotm1 ?_)
          have hsg' : sg ∈ ve.secGroups := by rw [hsplitA]; simp [hsg]
          have : sg = A := List.inj_on_of_nodup_map hgid hsg' hA hgeq
          exact this ▸ hsg
        have hrevA : revokeEventsOf ve.vpcId A
            = Event.revokeIngress ve.vpcId A.groupId
              :: (if A.egressRules.isEmpty then []
                  else [Event.revokeEgress ve.vpcId A.groupId]) := by
          simp [revokeEventsOf, hAnameb, hIngE]
        constructor
        · -- every delete of B comes after the revocation of A
          rw [heqsv]
          simp only [sgPhase, List.append_assoc]
          refine beforeAll_append_of_noq _ _ _ _ (fun e he =>
            (globalShape_benign e (eksEvents_shape _ _ e he) ve.vpcId B.groupId).2.2.2.1) ?_
          refine beforeAll_append_of_noq _ _ _ _ (fun e he =>
            (globalShape_benign e (logGroupEvents_shape _ _ e he) ve.vpcId B.groupId).2.2.2.1) ?_
          refine beforeAll_append_of_noq _ _ _ _ (fun e he =>
            ((hw1b e he).2 B.groupId).2.2) ?_
          refine beforeAll_append_of_noq _ _ _ _ (fun e he =>
            (hs1 e he ve.vpcId B.groupId).2.2.2) ?_
          refine beforeAll_append_of_noq _ _ _ _ (fun e he =>
            ((hmid e he).1 ve.vpcId B.groupId).2.2) ?_
          refine beforeAll_of_mem_p _ _ (ve.secGroups.flatMap (revokeEventsOf ve.vpcId)) _
            (Event.revokeIngress ve.vpcId A.groupId) ?_ (by simp [isRevokeIngressOf]) ?_
          · refine List.mem_flatMap.mpr ⟨A, hA, ?_⟩
            rw [hrevA]; simp
          · intro e he
            rcases revokeFlat_cases ve.vpcId ve.secGroups e he with ⟨sg, _, rfl | rfl⟩ <;> rfl
        · -- after the first revocation of A, a sleep still precedes
          -- every delete of B
          rw [heqsv]
          simp only [sgPhase, List.append_assoc]
          refine afterFirst_append_of_nop _ _ _ _ (fun e he =>
            (globalShape_benign e (eksEvents_shape _ _ e he) ve.vpcId A.groupId).2.1) ?_
          refine afterFirst_append_of_nop _ _ _ _ (fun e he =>
            (globalShape_benign e (logGroupEvents_shape _ _ e he) ve.vpcId A.groupId).2.1) ?_
          refine afterFirst_append_of_nop _ _ _ _ (fun e he =>
            ((hw1b e he).2 A.groupId).1) ?_
          refine afterFirst_append_of_nop _ _ _ _ (fun e he =>
            (hs1 e he ve.vpcId A.groupId).2.1) ?_
          refine afterFirst_append_of_nop _ _ _ _ (fun e he =>
            ((hmid e he).1 ve.vpcId A.groupId).1) ?_
          rw [hsplitA]
          rw [List.flatMap_append, List.flatMap_cons, hrevA]
          simp only [List.append_assoc, List.cons_append]
          refine afterFirst_append_of_nop _ _ _ _ ?_ ?_
          · intro e he
            rcases revokeFlat_cases ve.vpcId sA1 e he with ⟨sg, hsg, rfl | rfl⟩
            · simp [isRevokeIngressOf, hgneA sg hsg]
            · rfl
          · simp only [afterFirst, isRevokeIngressOf]
            rw [if_pos (by simp)]
            refine beforeAll_append_of_noq _ _ _ _ ?_ ?_
            · intro e he
              split at he
              · simp at he
              · obtain rfl : e = Event.revokeEgress ve.vpcId A.groupId := by simpa using he
                rfl
            refine beforeAll_append_of_noq _ _ _ _ ?_ ?_
            · intro e he
              rcases revokeFlat_cases ve.vpcId sA2 e he with ⟨sg, _, rfl | rfl⟩ <;> rfl
            exact beforeAll_of_mem_p _ _ [Event.sleep 5] _ (Event.sleep 5) (by simp)
              (by simp) (fun e he => by
                obtain rfl : e = Event.sleep 5 := by simpa using he
                rfl)
      · -- egress-revocation ordering
        intro A hA hAname hEg B hB
        have hAnameb : (A.groupName == "default") = false := beq_eq_false_iff_ne.mpr hAname
        have hEgE : A.egressRules.isEmpty = false := by simp [List.isEmpty_iff, hEg]
        rw [heqsv]
        simp only [sgPhase, List.append_assoc]
        refine beforeAll_append_of_noq _ _ _ _ (fun e he =>
          (globalShape_benign e (eksEvents_shape _ _ e he) ve.vpcId B.groupId).2.2.2.1) ?_
        refine beforeAll_append_of_noq _ _ _ _ (fun e he =>
          (globalShape_benign e (logGroupEvents_shape _ _ e he) ve.vpcId B.groupId).2.2.2.1) ?_
        refine beforeAll_append_of_noq _ _ _ _ (fun e he =>
          ((hw1b e he).2 B.groupId).2.2) ?_
        refine beforeAll_append_of_noq _ _ _ _ (fun e he =>
          (hs1 e he ve.vpcId B.groupId).2.2.2) ?_
        refine beforeAll_append_of_noq _ _ _ _ (fun e he =>
          ((hmid e he).1 ve.vpcId B.groupId).2.2) ?_
        refine beforeAll_of_mem_p _ _ (ve.secGroups.flatMap (revokeEventsOf ve.vpcId)) _
          (Event.revokeEgress ve.vpcId A.groupId) ?_ (by simp [isRevokeEgressOf]) ?_
        · refine List.mem_flatMap.mpr ⟨A, hA, ?_⟩
          simp [revokeEventsOf, hAnameb, hEgE]
        · intro e he
          rcases revokeFlat_cases ve.vpcId ve.secGroups e he with ⟨sg, _, rfl | rfl⟩ <;> rfl
      · -- the group named "default" is never touched
        simp only [List.append_assoc]
        intro D hD hDname e he
        simp only [List.mem_append] at he
        rcases he with he | he | he | he | he | he | he | he | he
        · exact touchesSg_eq_false _ _ _
            (globalShape_benign e (eksEvents_shape _ _ e he) ve.vpcId D.groupId).2.1
            (globalShape_benign e (eksEvents_shape _ _ e he) ve.vpcId D.groupId).2.2.1
            (globalShape_benign e (eksEvents_shape _ _ e he) ve.vpcId D.groupId).2.2.2.1
        · exact touchesSg_eq_false _ _ _
            (globalShape_benign e (logGroupEvents_shape _ _ e he) ve.vpcId D.groupId).2.1
            (globalShape_benign e (logGroupEvents_shape _ _ e he) ve.vpcId D.groupId).2.2.1
            (globalShape_benign e (logGroupEvents_shape _ _ e he) ve.vpcId D.groupId).2.2.2.1
        · exact touchesSg_eq_false _ _ _ ((hw1b e he).2 D.groupId).1
            ((hw1b e he).2 D.groupId).2.1 ((hw1b e he).2 D.groupId).2.2
        · exact vpcSegment_touches_default pids env fuel ve sv hsv hgid D hD hDname e he
        · exact touchesSg_eq_false _ _ _ ((hw3b e he).2 D.groupId).1
            ((hw3b e he).2 D.groupId).2.1 ((hw3b e he).2 D.groupId).2.2
        · exact touchesSg_eq_false _ _ _
            (globalShape_benign e (oidcEvents_shape _ _ e he) ve.vpcId D.groupId).2.1
            (globalShape_benign e (oidcEvents_shape _ _ e he) ve.vpcId D.groupId).2.2.1
            (globalShape_benign e (oidcEvents_shape _ _ e he) ve.vpcId D.groupId).2.2.2.1
        · exact touchesSg_eq_false _ _ _
            (globalShape_benign e (roleEvents_shape _ _ e he) ve.vpcId D.groupId).2.1
            (globalShape_benign e (roleEvents_shape _ _ e he) ve.vpcId D.groupId).2.2.1
            (globalShape_benign e (roleEvents_shape _ _ e he) ve.vpcId D.groupId).2.2.2.1
        · exact touchesSg_eq_false _ _ _
            (globalShape_benign e (policyEvents_shape _ _ e he) ve.vpcId D.groupId).2.1
            (globalShape_benign e (policyEvents_shape _ _ e he) ve.vpcId D.groupId).2.2.1
            (globalShape_benign e (policyEvents_shape _ _ e he) ve.vpcId D.groupId).2.2.2.1
        · exact touchesSg_eq_false _ _ _
            (globalShape_benign e (kmsEvents_shape _ _ e he) ve.vpcId D.groupId).2.1
            (globalShape_benign e (kmsEvents_shape _ _ e he) ve.vpcId D.groupId).2.2.1
            (globalShape_benign e (kmsEvents_shape _ _ e he) ve.vpcId D.groupId).2.2.2.1
    · -- the boundary is not matched: no event of the trace concerns it
      have hne_all : ∀ v0 ∈ matchedVpcs pids env, v0.vpcId ≠ ve.vpcId := by
        intro v0 h0 heq
        have hv0 : v0 ∈ env.vpcs := List.mem_of_mem_filter h0
        have : v0 = ve := List.inj_on_of_nodup_map hvnodup hv0 hve heq
        exact hmem (this ▸ h0)
      have hvpb := vpcSegments_benign_ne pids env fuel ve.vpcId _ vp hvp hne_all
      have hfree : ∀ e, e ∈ eksEvents pids env.clusters ++ logGroupEvents pids env.logGroups
            ++ vp ++ oidcEvents pids env.oidcs ++ roleEvents pids env.roles
            ++ policyEvents pids env.policies ++ kmsEvents pids env.kmsAliases →
          ∀ g, isDeleteSubnetOf ve.vpcId e = false ∧ isRevokeIngressOf ve.vpcId g e = false
            ∧ isRevokeEgressOf ve.vpcId g e = false ∧ isDeleteSgOf ve.vpcId g e = false := by
        intro e he g
        simp only [List.mem_append] at he
        rcases he with ((((((he | he) | he) | he) | he) | he) | he)
        · exact globalShape_benign e (eksEvents_shape _ _ e he) ve.vpcId g |>.imp id
            (fun h' => ⟨h'.1, h'.2.1, h'.2.2.1⟩)
        · exact globalShape_benign e (logGroupEvents_shape _ _ e he) ve.vpcId g |>.imp id
            (fun h' => ⟨h'.1, h'.2.1, h'.2.2.1⟩)
        · exact ⟨(hvpb e he).1, ((hvpb e he).2 g).1, ((hvpb e he).2 g).2.1,
            ((hvpb e he).2 g).2.2⟩
        · exact globalShape_benign e (oidcEvents_shape _ _ e he) ve.vpcId g |>.imp id
            (fun h' => ⟨h'.1, h'.2.1, h'.2.2.1⟩)
        · exact globalShape_benign e (roleEvents_shape _ _ e he) ve.vpcId g |>.imp id
            (fun h' => ⟨h'.1, h'.2.1, h'.2.2.1⟩)
        · exact globalShape_benign e (policyEvents_shape _ _ e he) ve.vpcId g |>.imp id
            (fun h' => ⟨h'.1, h'.2.1, h'.2.2.1⟩)
        · exact globalShape_benign e (kmsEvents_shape _ _ e he) ve.vpcId g |>.imp id
            (fun h' => ⟨h'.1, h'.2.1, h'.2.2.1⟩)
      refine ⟨?_, ?_, ?_⟩
      · intro A hA _ _ B hB
        refine ⟨beforeAll_of_noq _ _ _ (fun e he => (hfree e he B.groupId).2.2.2),
          afterFirst_of_nop _ _ _ (fun e he => (hfree e he A.groupId).2.1)⟩
      · intro A hA _ _ B hB
        exact beforeAll_of_noq _ _ _ (fun e he => (hfree e he B.groupId).2.2.2)
      · intro D hD _ e he
        exact touchesSg_eq_false _ _ _ (hfree e he D.groupId).2.1
          (hfree e he D.groupId).2.2.1 (hfree e he D.groupId).2.2.2

/-- A concrete account for the C2 witness: one matched VPC with two
mutually-referencing security groups and a default group. -/
def envC2 : AwsEnv :=
  ⟨[], [], [], [], [],
    (fun _ _ => []),
    [⟨"vpc-w", "omnishop-vpc", false, [], [], [], [],
      [⟨"sg-a", "app-a", ["ref-b"], []⟩, ⟨"sg-b", "app-b", ["ref-a"], []⟩,
        ⟨"sg-d", "default", ["x"], ["y"]⟩], []⟩],
    [], [], [], [], []⟩

/-- The concrete trace the engine produces on `envC2`. -/
def trC2 : List Event := (forceDeleteTrace ["omnishop"] envC2 1).getD []

/-- Witness for claim C2 at a concrete input with two
mutually-referencing groups: each group's deletion is preceded by the
other group's rule revocation. -/
theorem claim_C2_witness :
    forceDeleteTrace ["omnishop"] envC2 1 = some trC2
    ∧ beforeAll (isRevokeIngressOf "vpc-w" "sg-a") (isDeleteSgOf "vpc-w" "sg-b") trC2 = true
    ∧ beforeAll (isRevokeIngressOf "vpc-w" "sg-b") (isDeleteSgOf "vpc-w" "sg-a") trC2 = true := by
  have hmain := claim_C2_sg_two_pass ["omnishop"] envC2 1 trC2 (by decide) (by decide)
    ⟨"vpc-w", "omnishop-vpc", false, [], [], [], [],
      [⟨"sg-a", "app-a", ["ref-b"], []⟩, ⟨"sg-b", "app-b", ["ref-a"], []⟩,
        ⟨"sg-d", "default", ["x"], ["y"]⟩], []⟩ (by decide) (by decide)
  refine ⟨by decide, ?_, ?_⟩
  · exact (hmain.1 ⟨"sg-a", "app-a", ["ref-b"], []⟩ (by decide) (by decide) (by decide)
      ⟨"sg-b", "app-b", ["ref-a"], []⟩ (by decide)).1
  · exact (hmain.1 ⟨"sg-b", "app-b", ["ref-a"], []⟩ (by decide) (by decide) (by decide)
      ⟨"sg-a", "app-a", ["ref-b"], []⟩ (by decide)).1

/-- Counterexample for claim C5 as stated: the claim's rule says a tag
matches only when an identifier EQUALS the tag value, so a resource
named without any identifier and tagged Name = "proj-a-role" should not
match the set containing only "proj-a"; the code's matcher (substring
test on the tag value) does match it.  The claim's biconditional is
therefore false at this input. -/
theorem claim_C5_cex :
    classicLbTargeted ["proj-a"] "k8s-elb-8f3a2" (some [⟨"Name", "proj-a-role"⟩]) = true
    ∧ lbMatchSpecClaim ["proj-a"] "k8s-elb-8f3a2" [⟨"Name", "proj-a-role"⟩] = false := by
  decide

/-- Claim C5, amended: the matcher returns true exactly when some
identifier is a case-sensitive substring of the non-empty name, or a
SUBSTRING of some tag value, or some tag key equals
"kubernetes.io/cluster/" followed by an identifier; the claim's three
concrete examples hold, and absent or failed tag data and empty names
yield false without raising. -/
theorem claim_C5_matcher_amended :
    (∀ (pids : List String) (name : String) (ts : List Tag),
      classicLbTargeted pids name (some ts) = lbMatchSpecAmended pids name ts)
    ∧ classicLbTargeted ["proj-a"] "proj-a-vpc-1" (some []) = true
    ∧ classicLbTargeted ["proj-a"] "proj-b-vpc-1" (some []) = false
    ∧ classicLbTargeted ["proj-a"] "k8s-elb-8f3a2" (some [⟨"Name", "proj-a-role"⟩]) = true
    ∧ (∀ pids, classicLbTargeted pids "" none = false)
    ∧ (∀ pids name, classicLbTargeted pids name none = isProjectResource pids name) := by
  refine ⟨?_, by decide, by decide, by decide, ?_, ?_⟩
  · intro pids name ts
    by_cases h : name = ""
    · subst h
      simp [classicLbTargeted, lbMatchSpecAmended, classicLbTagTarget, isProjectResource,
        Bool.or_comm]
    · simp [classicLbTargeted, lbMatchSpecAmended, classicLbTagTarget, isProjectResource, h,
        beq_eq_false_iff_ne.mpr h, Bool.or_comm, Bool.or_assoc, Bool.or_left_comm]
  · intro pids
    simp [classicLbTargeted, isProjectResource]
  · intro pids name
    simp [classicLbTargeted]

/-- Claim C9: for every combination of the --projects flag and the
auto-detected cluster name, the identifier set handed to the cleaner
contains the base token "omnishop", is non-empty, and has no duplicate
entries. -/
theorem claim_C9_identifier_invariants :
    ∀ (detected projectsFlag : Option String),
      "omnishop" ∈ buildProjectIdentifiers detected projectsFlag
      ∧ buildProjectIdentifiers detected projectsFlag ≠ []
      ∧ (buildProjectIdentifiers detected projectsFlag).Nodup := by
  intro d p
  have hmem : "omnishop" ∈ buildProjectIdentifiers d p := by
    unfold buildProjectIdentifiers
    exact List.mem_dedup.mpr (by simp)
  exact ⟨hmem, List.ne_nil_of_mem hmem, List.nodup_dedup _⟩

/-- Counterexample for claim C6 as stated: when the destroy invocation
exits non-zero, its error output was never captured (the source runs it
without output capture), so the handler logs None — not the captured
error output the claim promises.  Here the external destroy writes
"boom" to stderr, yet no log entry carries it. -/
theorem claim_C6_cex :
    Step.tfCaught (some "boom") ∉ runTerraformDestroy (some "bkt") ⟨0, "", 1, "boom"⟩
    ∧ Step.tfCaught none ∈ runTerraformDestroy (some "bkt") ⟨0, "", 1, "boom"⟩ := by
  decide

/-- Claim C6, amended: with the state bucket unset the adapter returns
without invoking the external tool, and (forced mode disabled) the
orchestrator then prompts for forced deletion; with the bucket set,
a non-zero init exit is caught and its CAPTURED stderr logged, while a
non-zero destroy exit is caught with no captured output (None logged);
in every case the run proceeds to state cleanup and verification. -/
theorem claim_C6_destroy_adapter_amended :
    (∀ env : TfEnv, runTerraformDestroy none env = [Step.tfSkipNoBucket])
    ∧ (∀ (env : TfEnv) (fc : Bool), Step.promptForceConfirm ∈ mainSequence false none fc env)
    ∧ (∀ (b : String) (env : TfEnv), env.initExit ≠ 0 →
        runTerraformDestroy (some b) env = [Step.tfInit, Step.tfCaught (some env.initStderr)])
    ∧ (∀ (b : String) (env : TfEnv), env.initExit = 0 → env.destroyExit ≠ 0 →
        runTerraformDestroy (some b) env = [Step.tfInit, Step.tfDestroy, Step.tfCaught none])
    ∧ (∀ (force : Bool) (sb : Option String) (fc : Bool) (env : TfEnv),
        Step.stateCleanup ∈ mainSequence force sb fc env
        ∧ Step.verifyStep ∈ mainSequence force sb fc env) := by
  refine ⟨?_, ?_, ?_, ?_, ?_⟩
  · intro env; rfl
  · intro env fc; simp [mainSequence, runTerraformDestroy]
  · intro b env h; simp [runTerraformDestroy, h]
  · intro b env h1 h2; simp [runTerraformDestroy, h1, h2]
  · intro force sb fc env
    constructor <;> simp [mainSequence]

/-- Witness for claim C6 at concrete inputs. -/
theorem claim_C6_witness :
    runTerraformDestroy (some "bkt") ⟨1, "init failed", 0, ""⟩
      = [Step.tfInit, Step.tfCaught (some "init failed")]
    ∧ Step.promptForceConfirm ∈ mainSequence false none false ⟨0, "", 0, ""⟩ :=
  ⟨claim_C6_destroy_adapter_amended.2.2.1 "bkt" ⟨1, "init failed", 0, ""⟩ (by decide),
   claim_C6_destroy_adapter_amended.2.1 ⟨0, "", 0, ""⟩ false⟩

/-- The concrete log-group listing for the C3 counterexample. -/
def lgsC3 : List String := ["/aws/eks/omnishop-a", "/aws/eks/omnishop-b"]

/-- Counterexample for claim C3 as stated: both log groups match the
project, the delete call for the first raises, and the loop does NOT
continue to the second — its delete is never attempted, because the
only handler wraps the whole phase, not the individual call. -/
theorem claim_C3_cex :
    isProjectResource ["omnishop"] "/aws/eks/omnishop-b" = true
    ∧ "/aws/eks/omnishop-b"
        ∉ cleanupLogGroups ["omnishop"] lgsC3 (fun s => s == "/aws/eks/omnishop-a") := by
  decide

/-- Claim C3, amended: delete calls are guarded per-resource for most
kinds (subnets shown here: every listed subnet is attempted no matter
which deletes fail), but log-group deletes share a single phase-level
guard — the phase attempts exactly the matching groups up to and
including the first failing one and then stops (the run continues)
— and internet-gateway detach calls have no guard at all: the first
failing detach aborts the loop with the exception escaping the engine. -/
theorem claim_C3_guards_amended :
    (∀ (pids : List String) (lgs : List String) (delFails : String → Bool),
      cleanupLogGroups pids lgs delFails
        = attemptsUntilFirstFailure delFails
            ((lgs.filter (fun s => strStarts "/aws/eks/" s)).filter
              (fun lg => isProjectResource pids lg)))
    ∧ (∀ (delFails : String → Bool) (subnets : List String),
        (subnetLoop delFails subnets).1 = subnets)
    ∧ (∀ (detachFails : String → Bool) (igws : List String),
        (igwLoop detachFails igws).2 = none ↔ ∀ g ∈ igws, detachFails g = false) := by
  refine ⟨?_, ?_, ?_⟩
  · have key : ∀ (pids : List String) (f : String → Bool) (l : List String),
        (logGroupLoop pids f l).1
          = attemptsUntilFirstFailure f (l.filter (fun lg => isProjectResource pids lg)) := by
      intro pids f l
      induction l with
      | nil => rfl
      | cons lg rest ih =>
        by_cases hm : isProjectResource pids lg = true
        · by_cases hf : f lg = true
          · simp [logGroupLoop, attemptsUntilFirstFailure, hm, hf, List.filter_cons]
          · simp [logGroupLoop, attemptsUntilFirstFailure, hm, hf, List.filter_cons, ih]
        · simp [logGroupLoop, hm, List.filter_cons, ih]
    intro pids lgs f
    exact key pids f _
  · intro f subnets
    induction subnets with
    | nil => rfl
    | cons s rest ih => simp [subnetLoop, ih]
  · intro f igws
    induction igws with
    | nil => simp [igwLoop]
    | cons g rest ih =>
      by_cases hf : f g = true
      · simp [igwLoop, hf]
      · simp [igwLoop, hf, ih]

/-- Witness for claim C3 at concrete inputs. -/
theorem claim_C3_witness :
    cleanupLogGroups ["omnishop"] lgsC3 (fun s => s == "/aws/eks/omnishop-a")
      = attemptsUntilFirstFailure (fun s => s == "/aws/eks/omnishop-a")
          ((lgsC3.filter (fun s => strStarts "/aws/eks/" s)).filter
            (fun lg => isProjectResource ["omnishop"] lg))
    ∧ (subnetLoop (fun _ => true) ["s1", "s2"]).1 = ["s1", "s2"] :=
  ⟨claim_C3_guards_amended.1 ["omnishop"] lgsC3 (fun s => s == "/aws/eks/omnishop-a"),
   claim_C3_guards_amended.2.1 (fun _ => true) ["s1", "s2"]⟩

theorem s3Body_fst_mem (env : StoreEnv) :
    ∀ e ∈ (s3Body env).1,
      e = StoreEvent.headBucket ∨ e = StoreEvent.deleteAllVersions
        ∨ e = StoreEvent.deleteBucket ∨ e = StoreEvent.logBucketDeleted := by
  intro e he
  cases h1 : env.headRes with
  | error er => simp [s3Body, h1] at he; simp [he]
  | ok u =>
    cases u
    cases h2 : env.delVersionsRes with
    | error er => simp [s3Body, h1, h2] at he; tauto
    | ok u2 =>
      cases u2
      cases h3 : env.delBucketRes with
      | error er => simp [s3Body, h1, h2, h3] at he; tauto
      | ok u3 => cases u3; simp [s3Body, h1, h2, h3] at he; tauto

theorem handleS3Err_mem (er : SErr) :
    ∀ e ∈ handleS3Err er, e = StoreEvent.logBucketAbsentOk ∨ e = StoreEvent.s3Warn := by
  intro e he
  cases er with
  | clientError code =>
    simp only [handleS3Err] at he
    split at he
    · simp at he; simp [he]
    · simp at he; simp [he]
  | genericError => simp [handleS3Err] at he; simp [he]

theorem s3Part_mem (sb : Option String) (env : StoreEnv) :
    ∀ e ∈ s3Part sb env,
      e = StoreEvent.headBucket ∨ e = StoreEvent.deleteAllVersions
        ∨ e = StoreEvent.deleteBucket ∨ e = StoreEvent.logBucketDeleted
        ∨ e = StoreEvent.logBucketAbsentOk ∨ e = StoreEvent.s3Warn
        ∨ e = StoreEvent.logNoBucket := by
  intro e he
  cases sb with
  | none => simp [s3Part] at he; simp [he]
  | some b =>
    simp only [s3Part] at he
    rcases List.mem_append.mp he with he | he
    · rcases s3Body_fst_mem env e he with rfl | rfl | rfl | rfl <;> tauto
    · cases h2 : (s3Body env).2 with
      | none => rw [h2] at he; simp at he
      | some er =>
        rw [h2] at he
        rcases handleS3Err_mem er e he with rfl | rfl <;> tauto

theorem lockBody_mem (env : StoreEnv) :
    ∀ e ∈ lockBody env,
      e = StoreEvent.deleteTable ∨ e = StoreEvent.waitTableGone
        ∨ e = StoreEvent.logTableAbsentOk ∨ e = StoreEvent.logTableDeleted
        ∨ e = StoreEvent.tableWarn := by
  intro e he
  unfold lockBody at he
  split at he
  · split at he <;> (simp at he; tauto)
  · simp at he; tauto
  · split at he <;> (simp at he; tauto)

theorem lockBody_head (env : StoreEnv) :
    ∃ rest, lockBody env = StoreEvent.deleteTable :: rest := by
  unfold lockBody
  split
  · split
    · exact ⟨_, rfl⟩
    · exact ⟨_, rfl⟩
  · exact ⟨_, rfl⟩
  · split
    · exact ⟨_, rfl⟩
    · exact ⟨_, rfl⟩

/-- Claim C7: the remote-state store cleaner is idempotent and total.
With the bucket set and present it deletes all object versions strictly
before deleting the bucket; a 404 on the existence check is treated as
success (logged as already deleted, no warning, and no delete issued);
the coordination-table delete (which removes the single lock record the
table holds) is attempted for every input, a missing table is treated
as success, and on a successful delete the cleaner waits for the
table's removal to be confirmed.  Every failure path is consumed by a
handler inside the function — the model is a total function, mirroring
that no outcome raises out of the cleaner. -/
theorem claim_C7_state_store :
    (∀ (sb : Option String) (env : StoreEnv),
      StoreEvent.deleteTable ∈ cleanupStateStore sb env)
    ∧ (∀ (sb : Option String) (env : StoreEnv),
        beforeAll (fun e => e == StoreEvent.deleteAllVersions)
          (fun e => e == StoreEvent.deleteBucket) (cleanupStateStore sb env) = true)
    ∧ (∀ (b : String) (env : StoreEnv), env.headRes = Except.ok () →
        env.delVersionsRes = Except.ok () → env.delBucketRes = Except.ok () →
        StoreEvent.deleteBucket ∈ cleanupStateStore (some b) env
        ∧ StoreEvent.logBucketDeleted ∈ cleanupStateStore (some b) env)
    ∧ (∀ (b : String) (env : StoreEnv),
        env.headRes = Except.error (SErr.clientError "404") →
        StoreEvent.logBucketAbsentOk ∈ cleanupStateStore (some b) env
        ∧ StoreEvent.s3Warn ∉ cleanupStateStore (some b) env
        ∧ StoreEvent.deleteBucket ∉ cleanupStateStore (some b) env)
    ∧ (∀ (sb : Option String) (env : StoreEnv),
        env.delTableRes = Except.error (SErr.clientError "ResourceNotFoundException") →
        StoreEvent.logTableAbsentOk ∈ cleanupStateStore sb env
        ∧ StoreEvent.tableWarn ∉ cleanupStateStore sb env)
    ∧ (∀ (sb : Option String) (env : StoreEnv), env.delTableRes = Except.ok () →
        beforeAll (fun e => e == StoreEvent.deleteTable)
          (fun e => e == StoreEvent.waitTableGone) (cleanupStateStore sb env) = true
        ∧ StoreEvent.waitTableGone ∈ cleanupStateStore sb env) := by
  refine ⟨?_, ?_, ?_, ?_, ?_, ?_⟩
  · intro sb env
    obtain ⟨rest, hl⟩ := lockBody_head env
    simp [cleanupStateStore, hl]
  · intro sb env
    have hlock : ∀ e ∈ lockBody env, (e == StoreEvent.deleteBucket) = false := by
      intro e he
      rcases lockBody_mem env e he with rfl | rfl | rfl | rfl | rfl <;> rfl
    cases sb with
    | none =>
      refine beforeAll_of_noq _ _ _ ?_
      intro e he
      rcases List.mem_append.mp he with he | he
      · obtain rfl : e = StoreEvent.logNoBucket := by simpa [s3Part] using he
        rfl
      · exact hlock e he
    | some b =>
      cases h1 : env.headRes with
      | error er =>
        refine beforeAll_of_noq _ _ _ ?_
        intro e he
        rcases List.mem_append.mp he with he | he
        · simp only [s3Part, s3Body, h1] at he
          rcases List.mem_append.mp he with he | he
          · obtain rfl : e = StoreEvent.headBucket := by simpa using he
            rfl
          · rcases handleS3Err_mem er e he with rfl | rfl <;> rfl
        · exact hlock e he
      | ok u =>
        cases u
        cases h2 : env.delVersionsRes with
        | error er =>
          have heq : cleanupStateStore (some b) env
              = [StoreEvent.headBucket, StoreEvent.deleteAllVersions]
                ++ (handleS3Err er ++ lockBody env) := by
            simp [cleanupStateStore, s3Part, s3Body, h1, h2]
          rw [heq]
          refine beforeAll_of_mem_p _ _ _ _ StoreEvent.deleteAllVersions (by simp) rfl ?_
          intro e he
          rcases List.mem_cons.mp he with rfl | he
          · rfl
          · obtain rfl : e = StoreEvent.deleteAllVersions := by simpa using he
            rfl
        | ok u2 =>
          cases u2
          cases h3 : env.delBucketRes with
          | error er =>
            have heq : cleanupStateStore (some b) env
                = [StoreEvent.headBucket, StoreEvent.deleteAllVersions]
                  ++ (StoreEvent.deleteBucket :: (handleS3Err er ++ lockBody env)) := by
              simp [cleanupStateStore, s3Part, s3Body, h1, h2, h3]
            rw [heq]
            refine beforeAll_of_mem_p _ _ _ _ StoreEvent.deleteAllVersions (by simp) rfl ?_
            intro e he
            rcases List.mem_cons.mp he with rfl | he
            · rfl
            · obtain rfl : e = StoreEvent.deleteAllVersions := by simpa using he
              rfl
          | ok u3 =>
            cases u3
            have heq : cleanupStateStore (some b) env
                = [StoreEvent.headBucket, StoreEvent.deleteAllVersions]
                  ++ (StoreEvent.deleteBucket :: StoreEvent.logBucketDeleted
                      :: lockBody env) := by
              simp [cleanupStateStore, s3Part, s3Body, h1, h2, h3]
            rw [heq]
            refine beforeAll_of_mem_p _ _ _ _ StoreEvent.deleteAllVersions (by simp) rfl ?_
            intro e he
            rcases List.mem_cons.mp he with rfl | he
            · rfl
            · obtain rfl : e = StoreEvent.deleteAllVersions := by simpa using he
              rfl
  · intro b env h1 h2 h3
    constructor <;> simp [cleanupStateStore, s3Part, s3Body, h1, h2, h3]
  · intro b env h1
    have h404 : (("404" : String) == "404") = true := by decide
    refine ⟨?_, ?_, ?_⟩
    · simp [cleanupStateStore, s3Part, s3Body, h1, handleS3Err, h404]
    · intro hmem
      rcases List.mem_append.mp hmem with he | he
      · simp [s3Part, s3Body, h1, handleS3Err, h404] at he
      · rcases lockBody_mem env _ he with h | h | h | h | h <;> exact StoreEvent.noConfusion h
    · intro hmem
      rcases List.mem_append.mp hmem with he | he
      · simp [s3Part, s3Body, h1, handleS3Err, h404] at he
      · rcases lockBody_mem env _ he with h | h | h | h | h <;> exact StoreEvent.noConfusion h
  · intro sb env h1
    have hrnf : (("ResourceNotFoundException" : String) == "ResourceNotFoundException")
        = true := by decide
    refine ⟨?_, ?_⟩
    · simp [cleanupStateStore, lockBody, h1, hrnf]
    · intro hmem
      rcases List.mem_append.mp hmem with he | he
      · rcases s3Part_mem sb env _ he with h | h | h | h | h | h | h <;>
          exact StoreEvent.noConfusion h
      · simp [lockBody, h1, hrnf] at he
  · intro sb env h1
    have hq : ∀ e ∈ s3Part sb env, (e == StoreEvent.waitTableGone) = false := by
      intro e he
      rcases s3Part_mem sb env e he with rfl | rfl | rfl | rfl | rfl | rfl | rfl <;> rfl
    constructor
    · refine beforeAll_append_of_noq _ _ _ _ hq ?_
      obtain ⟨rest, hl⟩ := lockBody_head env
      rw [hl]
      simp [beforeAll]
    · cases hw : env.waitRes with
      | error er => simp [cleanupStateStore, lockBody, h1, hw]
      | ok u4 => cases u4; simp [cleanupStateStore, lockBody, h1, hw]

/-- Witness for claim C7 at a concrete input where every operation
succeeds. -/
theorem claim_C7_witness :
    StoreEvent.deleteTable ∈ cleanupStateStore (some "bkt")
      ⟨Except.ok (), Except.ok (), Except.ok (), Except.ok (), Except.ok ()⟩
    ∧ StoreEvent.deleteBucket ∈ cleanupStateStore (some "bkt")
      ⟨Except.ok (), Except.ok (), Except.ok (), Except.ok (), Except.ok ()⟩
    ∧ StoreEvent.waitTableGone ∈ cleanupStateStore (some "bkt")
      ⟨Except.ok (), Except.ok (), Except.ok (), Except.ok (), Except.ok ()⟩ :=
  ⟨claim_C7_state_store.1 (some "bkt") _,
   (claim_C7_state_store.2.2.1 "bkt"
     ⟨Except.ok (), Except.ok (), Except.ok (), Except.ok (), Except.ok ()⟩ rfl rfl rfl).1,
   (claim_C7_state_store.2.2.2.2.2 (some "bkt")
     ⟨Except.ok (), Except.ok (), Except.ok (), Except.ok (), Except.ok ()⟩ rfl).2⟩

/-- Claim C10: the forced-deletion phase targets global identity
objects beyond the project identifier set — in every account state, for
every successful run, every IAM role whose name contains
"eks-cluster-role", every customer-managed policy whose name contains
"AWSLoadBalancerController", and every OIDC provider whose ARN contains
"eks" receives a delete call, whether or not any identifier matches. -/
theorem claim_C10_overbroad_identity_deletion :
    ∀ (pids : List String) (env : AwsEnv) (fuel : Nat) (tr : List Event),
      forceDeleteTrace pids env fuel = some tr →
      (∀ r ∈ env.roles, hasSubstr "eks-cluster-role" r.roleName = true →
        Event.deleteRole r.roleName ∈ tr)
      ∧ (∀ p ∈ env.policies, hasSubstr "AWSLoadBalancerController" p.policyName = true →
        Event.deletePolicy p.arn ∈ tr)
      ∧ (∀ o ∈ env.oidcs, hasSubstr "eks" o.arn = true → Event.deleteOidc o.arn ∈ tr) := by
  intro pids env fuel tr h
  unfold forceDeleteTrace at h
  cases hvp : vpcSegments pids env fuel (matchedVpcs pids env) with
  | none => rw [hvp] at h; cases h
  | some vp =>
    rw [hvp] at h
    injection h with h
    subst h
    refine ⟨?_, ?_, ?_⟩
    · intro r hr hsub
      have hm : Event.deleteRole r.roleName ∈ roleEvents pids env.roles := by
        refine List.mem_flatMap.mpr ⟨r, hr, ?_⟩
        rw [if_pos (by simp [hsub])]
        simp
      simp [List.mem_append, hm]
    · intro p hp hsub
      have hm : Event.deletePolicy p.arn ∈ policyEvents pids env.policies := by
        refine List.mem_flatMap.mpr ⟨p, hp, ?_⟩
        rw [if_pos (by simp [hsub])]
        simp
      simp [List.mem_append, hm]
    · intro o ho hsub
      have hm : Event.deleteOidc o.arn ∈ oidcEvents pids env.oidcs := by
        refine List.mem_flatMap.mpr ⟨o, ho, ?_⟩
        rw [if_pos (by simp [hsub])]
        simp
      simp [List.mem_append, hm]

/-- A concrete account for the C10 witness: a role, a policy and an
OIDC provider, none of which matches the identifier set. -/
def envC10 : AwsEnv :=
  ⟨[], [], [], [], [], (fun _ _ => []), [], [],
    [⟨"arn:aws:iam::1:oidc-provider/eks-x", []⟩],
    [⟨"legacy-eks-cluster-role", [], [], []⟩],
    [⟨"AWSLoadBalancerControllerIAMPolicy", "arn:p1", []⟩],
    []⟩

/-- The concrete trace the engine produces on `envC10`. -/
def trC10 : List Event := (forceDeleteTrace ["omnishop"] envC10 1).getD []

/-- Witness for claim C10 at a concrete input: all three identity
objects are deleted although none matches "omnishop". -/
theorem claim_C10_witness :
    forceDeleteTrace ["omnishop"] envC10 1 = some trC10
    ∧ Event.deleteRole "legacy-eks-cluster-role" ∈ trC10
    ∧ Event.deletePolicy "arn:p1" ∈ trC10
    ∧ Event.deleteOidc "arn:aws:iam::1:oidc-provider/eks-x" ∈ trC10
    ∧ isProjectResource ["omnishop"] "legacy-eks-cluster-role" = false := by
  have h : forceDeleteTrace ["omnishop"] envC10 1 = some trC10 := by decide
  have hm := claim_C10_overbroad_identity_deletion ["omnishop"] envC10 1 trC10 h
  exact ⟨h,
    hm.1 ⟨"legacy-eks-cluster-role", [], [], []⟩ (by decide) (by decide),
    hm.2.1 ⟨"AWSLoadBalancerControllerIAMPolicy", "arn:p1", []⟩ (by decide) (by decide),
    hm.2.2 ⟨"arn:aws:iam::1:oidc-provider/eks-x", []⟩ (by decide) (by decide),
    by decide⟩

/-- A concrete account for the C8 counterexample: nothing matches the
identifier set, yet a role named with "eks-cluster-role" exists and a
non-default VPC unrelated to the project exists. -/
def envC8 : AwsEnv :=
  ⟨[], [], [], [], [], (fun _ _ => []),
    [⟨"vpc-9", "unrelated-vpc", false, [], [], [], [], [], []⟩],
    [], [],
    [⟨"legacy-eks-cluster-role", [], [], []⟩],
    [], []⟩

/-- Counterexample for claim C8 as stated: in an account where no
resource matches the identifier set, the engine still issues a delete
call (for the role whose name contains "eks-cluster-role"), and the
verification report still contains an ActionRequired entry (the
verifier counts custom VPCs account-wide, not per project). -/
theorem claim_C8_cex :
    envC8.roles.all (fun r => !isProjectResource ["omnishop"] r.roleName) = true
    ∧ envC8.vpcs.all
        (fun v => !(["omnishop"].any (fun pid => hasSubstr pid v.nameTag))) = true
    ∧ forceDeleteTrace ["omnishop"] envC8 1
        = some [Event.deleteRole "legacy-eks-cluster-role"]
    ∧ ("Custom VPCs", VStatus.actionRequired)
        ∈ (verifyCleanup ["omnishop"] envC8 noListFailures).getD [] := by
  decide

/-- Claim C8, amended: the forced-deletion engine issues zero calls on
an account where, beyond nothing matching the identifier set, no role
name contains "eks-cluster-role", no customer-managed policy name
contains "AWSLoadBalancerController", and no OIDC ARN contains "eks";
and the verification report contains no ActionRequired entry provided
additionally the account has no load balancer at all, no NAT gateway in
an active state, and no non-default VPC (the verifier counts those
categories account-wide). -/
theorem claim_C8_empty_project_amended :
    ∀ (pids : List String) (env : AwsEnv) (fuel : Nat),
      (∀ c ∈ env.clusters, isProjectResource pids c = false) →
      (∀ lg ∈ env.logGroups, isProjectResource pids lg = false) →
      (∀ v ∈ env.vpcs, (pids.any (fun pid => hasSubstr pid v.nameTag)) = false) →
      (∀ o ∈ env.oidcs,
        (o.tags.any (fun t => t.key == "Name" && isProjectResource pids t.value)
          || hasSubstr "eks" o.arn) = false) →
      (∀ r ∈ env.roles,
        (isProjectResource pids r.roleName
          || hasSubstr "eks-cluster-role" r.roleName) = false) →
      (∀ p ∈ env.policies,
        (isProjectResource pids p.policyName
          || hasSubstr "AWSLoadBalancerController" p.policyName) = false) →
      (∀ a ∈ env.kmsAliases, isProjectResource pids a.aliasName = false) →
      forceDeleteTrace pids env fuel = some []
      ∧ ((∀ n ∈ env.nats, (n.state == "available" || n.state == "pending") = false) →
          env.clbs = [] → env.albs = [] →
          (∀ v ∈ env.vpcs, v.isDefault = true) →
          ∀ rep, verifyCleanup pids env noListFailures = some rep →
            noActionRequired rep = true) := by
  intro pids env fuel h1 h2 h3 h4 h5 h6 h7
  constructor
  · have hm : matchedVpcs pids env = [] := by
      refine List.filter_eq_nil_iff.mpr ?_
      intro v hv
      simp [h3 v hv]
    have he : eksEvents pids env.clusters = [] := by
      refine List.flatMap_eq_nil_iff.mpr ?_
      intro c hc
      simp [eksEvents, h1 c hc]
    have hlg : logGroupEvents pids env.logGroups = [] := by
      unfold logGroupEvents
      have hf : (env.logGroups.filter (fun s => strStarts "/aws/eks/" s)).filter
          (fun lg => isProjectResource pids lg) = [] := by
        refine List.filter_eq_nil_iff.mpr ?_
        intro lg hlg
        simp [h2 lg (List.mem_of_mem_filter hlg)]
      rw [hf]
      rfl
    have ho : oidcEvents pids env.oidcs = [] := by
      unfold oidcEvents
      refine List.flatMap_eq_nil_iff.mpr ?_
      intro o hro
      simp [h4 o hro]
    have hr : roleEvents pids env.roles = [] := by
      unfold roleEvents
      refine List.flatMap_eq_nil_iff.mpr ?_
      intro r hrr
      simp [h5 r hrr]
    have hp : policyEvents pids env.policies = [] := by
      unfold policyEvents
      refine List.flatMap_eq_nil_iff.mpr ?_
      intro p hpp
      simp [h6 p hpp]
    have hk : kmsEvents pids env.kmsAliases = [] := by
      unfold kmsEvents
      refine List.flatMap_eq_nil_iff.mpr ?_
      intro a ha
      simp [h7 a ha]
    simp [forceDeleteTrace, hm, vpcSegments, he, hlg, ho, hr, hp, hk]
  · intro hnat hclb halb hdef rep hrep
    have hca : env.nats.filter (fun n => n.state == "available" || n.state == "pending")
        = [] := by
      refine List.filter_eq_nil_iff.mpr ?_
      intro n hn
      simp [hnat n hn]
    have hcv : env.vpcs.filter (fun v => !v.isDefault) = [] := by
      refine List.filter_eq_nil_iff.mpr ?_
      intro v hv
      simp [hdef v hv]
    have hcl : env.clusters.filter (fun c => isProjectResource pids c) = [] := by
      refine List.filter_eq_nil_iff.mpr ?_
      intro c hc
      simp [h1 c hc]
    have hir : env.roles.filter (fun r => isProjectResource pids r.roleName) = [] := by
      refine List.filter_eq_nil_iff.mpr ?_
      intro r hrr
      have := h5 r hrr
      simp only [Bool.or_eq_false_iff] at this
      simp [this.1]
    have hip : env.policies.filter (fun p => isProjectResource pids p.policyName) = [] := by
      refine List.filter_eq_nil_iff.mpr ?_
      intro p hpp
      have := h6 p hpp
      simp only [Bool.or_eq_false_iff] at this
      simp [this.1]
    simp [verifyCleanup, noListFailures, hca, hcv, hcl, hir, hip, hclb, halb] at hrep
    subst hrep
    simp [noActionRequired, checkStatus]
    split <;> simp

/-- The empty concrete account for the C8 witness. -/
def envEmpty : AwsEnv := ⟨[], [], [], [], [], (fun _ _ => []), [], [], [], [], [], []⟩

/-- Witness for claim C8 at the empty account. -/
theorem claim_C8_witness :
    forceDeleteTrace ["omnishop"] envEmpty 1 = some []
    ∧ noActionRequired ((verifyCleanup ["omnishop"] envEmpty noListFailures).getD [])
        = true := by
  have hm := claim_C8_empty_project_amended ["omnishop"] envEmpty 1 (by simp [envEmpty])
    (by simp [envEmpty]) (by simp [envEmpty]) (by simp [envEmpty]) (by simp [envEmpty])
    (by simp [envEmpty]) (by simp [envEmpty])
  exact ⟨hm.1, hm.2 (by simp [envEmpty]) rfl rfl (by simp [envEmpty]) _ (by decide)⟩

end Nuke
